import Mathlib

/-!
# Verification of the claude-code-acp session/tool-call orchestration engine

Shallow embedding of `src/server.ts` (the `ClaudeCodeAgent` class): per-session
state, upstream message handlers, the prompt/cancel turn orchestration and the
client-prompt content conversion.  Dynamic JavaScript values (tool inputs) are
modelled by a small JSON value type; JavaScript `Map`s by association lists;
the one-shot promise resolution of a prompt by an `Option`-valued settle cell.
-/

set_option maxRecDepth 2000

/-- JSON-ish dynamic value, modelling the `any`-typed tool inputs of the source. -/
inductive Json where
  | jnull
  | jbool (b : Bool)
  | jnum (n : Int)
  | jstr (s : String)
  | jarr (xs : List Json)
  | jobj (fields : List (String × Json))

/-- First field of a JS object with the given key (`input.key`); `none` = `undefined`. -/
def Json.getField : Json → String → Option Json
  | .jobj fields, k => go fields k
  | _, _ => none
where go : List (String × Json) → String → Option Json
  | [], _ => none
  | (k', v) :: rest, k => if k' = k then some v else go rest k

/-- JS falsiness of a value (`!v`). -/
def Json.falsy : Json → Bool
  | .jnull => true
  | .jbool b => !b
  | .jnum n => n == 0
  | .jstr s => s == ""
  | _ => false

mutual
/-- JS `String(v)` coercion, as used in template literals. -/
def Json.toDisplay : Json → String
  | .jnull => "null"
  | .jbool b => cond b "true" "false"
  | .jnum n => toString n
  | .jstr s => s
  | .jarr xs => String.intercalate "," (Json.toDisplayList xs)
  | .jobj _ => "[object Object]"

def Json.toDisplayList : List Json → List String
  | [] => []
  | x :: xs => Json.toDisplay x :: Json.toDisplayList xs
end

mutual
/-- JS `JSON.stringify(v)` (string escaping elided: inputs are plain text). -/
def Json.stringify : Json → String
  | .jnull => "null"
  | .jbool b => cond b "true" "false"
  | .jnum n => toString n
  | .jstr s => "\"" ++ s ++ "\""
  | .jarr xs => "[" ++ String.intercalate "," (Json.stringifyList xs) ++ "]"
  | .jobj fields => "\x7b" ++ String.intercalate "," (Json.stringifyFields fields) ++ "\x7d"

def Json.stringifyList : List Json → List String
  | [] => []
  | x :: xs => Json.stringify x :: Json.stringifyList xs

def Json.stringifyFields : List (String × Json) → List String
  | [] => []
  | (k, v) :: rest => ("\"" ++ k ++ "\":" ++ Json.stringify v) :: Json.stringifyFields rest
end

/-- `input.k` rendered by a template literal: `undefined` when absent. -/
def jsFieldDisplay (j : Json) (k : String) : String :=
  match j.getField k with
  | some v => v.toDisplay
  | none => "undefined"

/-- `input.k || dflt`: the field when present and truthy (rendered as a string),
else the default. -/
def jsFieldOrDefault (j : Json) (k : String) (dflt : String) : String :=
  match j.getField k with
  | some v => if v.falsy then dflt else v.toDisplay
  | none => dflt

/-- `input.k` when it is an array, else `[]` (models `input.edits || []`). -/
def jsFieldArr (j : Json) (k : String) : List Json :=
  match j.getField k with
  | some (.jarr xs) => xs
  | _ => []

section AListOps
variable {α : Type}

/-- `Map.get` on an association list. -/
def lookupA : List (String × α) → String → Option α
  | [], _ => none
  | (k', v) :: rest, k => if k' = k then some v else lookupA rest k

/-- `Map.set`: replace the entry for the key if present, else append. -/
def insertA : List (String × α) → String → α → List (String × α)
  | [], k, v => [(k, v)]
  | (k', v') :: rest, k, v =>
      if k' = k then (k, v) :: rest else (k', v') :: insertA rest k v

/-- `Map.delete`: drop the entry (entries) for the key. -/
def eraseA : List (String × α) → String → List (String × α)
  | [], _ => []
  | (k', v) :: rest, k =>
      if k' = k then eraseA rest k else (k', v) :: eraseA rest k

theorem lookupA_insertA (l : List (String × α)) (k : String) (v : α) (k' : String) :
    lookupA (insertA l k v) k' = if k' = k then some v else lookupA l k' := by
  induction l with
  | nil =>
      rcases eq_or_ne k' k with h | h
      · subst h; simp [insertA, lookupA]
      · simp [insertA, lookupA, h, Ne.symm h]
  | cons hd tl ih =>
      obtain ⟨k0, v0⟩ := hd
      by_cases h0 : k0 = k
      · subst h0
        rcases eq_or_ne k' k0 with h | h
        · subst h; simp [insertA, lookupA]
        · simp [insertA, lookupA, h, Ne.symm h]
      · rcases eq_or_ne k0 k' with h | h
        · subst h
          simp [insertA, lookupA, h0, Ne.symm h0]
        · simp [insertA, lookupA, h0, h, ih]

theorem lookupA_insertA_self (l : List (String × α)) (k : String) (v : α) :
    lookupA (insertA l k v) k = some v := by
  simp [lookupA_insertA]

theorem lookupA_insertA_ne (l : List (String × α)) (k : String) (v : α)
    (k' : String) (h : k' ≠ k) : lookupA (insertA l k v) k' = lookupA l k' := by
  simp [lookupA_insertA, h]

theorem insertA_insertA (l : List (String × α)) (k : String) (v w : α) :
    insertA (insertA l k v) k w = insertA l k w := by
  induction l with
  | nil => simp [insertA]
  | cons hd tl ih =>
      obtain ⟨k0, v0⟩ := hd
      by_cases h0 : k0 = k <;> simp [insertA, h0, ih]

theorem lookupA_eraseA_self (l : List (String × α)) (k : String) :
    lookupA (eraseA l k) k = none := by
  induction l with
  | nil => simp [eraseA, lookupA]
  | cons hd tl ih =>
      obtain ⟨k0, v0⟩ := hd
      by_cases h0 : k0 = k
      · simpa [eraseA, h0] using ih
      · simpa [eraseA, lookupA, h0] using ih

theorem lookupA_eraseA_sub (l : List (String × α)) (k k' : String) (v : α)
    (h : lookupA (eraseA l k) k' = some v) : lookupA l k' = some v := by
  induction l with
  | nil => simp [eraseA, lookupA] at h
  | cons hd tl ih =>
      obtain ⟨k0, v0⟩ := hd
      by_cases h0 : k0 = k
      · rw [show eraseA ((k0, v0) :: tl) k = eraseA tl k by simp [eraseA, h0]] at h
        have htl := ih h
        by_cases h1 : k0 = k'
        · exfalso
          subst h1
          subst h0
          rw [lookupA_eraseA_self] at h
          exact Option.noConfusion h
        · simpa [lookupA, h1] using htl
      · rw [show eraseA ((k0, v0) :: tl) k = (k0, v0) :: eraseA tl k by
          simp [eraseA, h0]] at h
        by_cases h1 : k0 = k'
        · simpa [lookupA, h1] using h
        · simp only [lookupA, if_neg h1] at h ⊢
          exact ih h

end AListOps

/-! ## Client-visible update variants (`connection.sessionUpdate` payloads) -/

/-- A tool-call content block sent to the client: a diff preview or a wrapped
text block (`\x7btype:"content", content:\x7btype:"text", text\x7d\x7d`). -/
inductive ToolContent where
  | diff (path oldText newText : String)
  | contentText (text : String)

/-- One entry of a `plan` update. -/
structure PlanEntry where
  content : String
  priority : String
  status : String

/-- The `tool_call` notification stored as `originalToolCall` for the
preview-carrying tools (`Edit`, `Write`, `MultiEdit`); its `status` is always
`"pending"` and its `sessionUpdate` tag is `"tool_call"`. -/
structure OriginalToolCall where
  toolCallId : String
  title : String
  kind : String
  rawInput : Json
  content : List ToolContent

/-- `session/update` notification variants produced by the core. -/
inductive SessionUpdate where
  | agentMessageChunk (text : String)
  | agentThoughtChunk (text : String)
  | toolCall (toolCallId : String) (title : String) (kind : Option String)
      (status : String) (rawInput : Json) (content : List ToolContent)
  | toolCallUpdate (toolCallId : String) (status : String) (title : Option String)
      (kind : Option String) (rawInput : Option Json) (rawOutput : Option String)
      (content : List ToolContent)
  | plan (entries : List PlanEntry)

/-! ## Session state (`interface AgentSession`) -/

/-- Value of `session.pendingToolUses` for one upstream tool-invocation id. -/
structure PendingToolUse where
  toolCallId : String
  name : String
  input : Json
  originalToolCall : Option OriginalToolCall

/-- Entry of `session.completedToolCalls`. -/
structure CompletedToolCall where
  name : String
  toolCallId : String
  toolResult : String
  originalToolCall : Option OriginalToolCall
  isError : Bool

/-- Per-session state. The in-flight prompt's JS `Promise` is modelled by the
one-shot settle cell `promptOutcome`: `none` while unsettled; the first
resolution fixes it and later resolutions are no-ops (JS promise semantics).
`pendingPrompt` models the presence of the (unaborted) `AbortController`;
`promptResolver` the non-nullness of the stored resolver callback. -/
structure AgentSession where
  claudeSessionId : Option String
  pendingPrompt : Bool
  promptResolver : Bool
  promptOutcome : Option String
  pendingToolUses : List (String × PendingToolUse)
  completedToolCalls : List CompletedToolCall
  cancelled : Bool

/-- Settling the current prompt's promise: only the first resolution counts. -/
def resolvePromise (s : AgentSession) (stopReason : String) : AgentSession :=
  match s.promptOutcome with
  | some _ => s
  | none => { s with promptOutcome := some stopReason }

/-! ## Helper `formatToolInput` and the plan-priority classifier -/

/-- `formatToolInput`: `key: value` pairs, string values unquoted, others
JSON-rendered; non-objects coerced by `String(input || "")`. -/
def formatToolInput (input : Json) : String :=
  match input with
  | .jobj entries =>
      String.intercalate ", " (entries.map fun kv =>
        kv.1 ++ ": " ++
          match kv.2 with
          | .jstr s => s
          | .jnull => "null"
          | v => v.stringify)
  | .jarr xs =>
      String.intercalate ", " ((List.range xs.length).zip xs |>.map fun p =>
        toString p.1 ++ ": " ++
          match p.2 with
          | .jstr s => s
          | .jnull => "null"
          | v => v.stringify)
  | v => if v.falsy then "" else v.toDisplay

/-- `a.startsWith b` on character lists. -/
def charsStartWith : List Char → List Char → Bool
  | [], _ => true
  | _ :: _, [] => false
  | a :: as, b :: bs => a == b && charsStartWith as bs

/-- JS `String.prototype.includes` on character lists. -/
def charsInclude (pat : List Char) : List Char → Bool
  | [] => pat.isEmpty
  | c :: rest => charsStartWith pat (c :: rest) || charsInclude pat rest

/-- JS `s.includes(pat)`. -/
def jsIncludes (s pat : String) : Bool :=
  charsInclude pat.data s.data

/-- `determinePriority`: keyword classification of a todo item's content. -/
def determinePriority (content : String) : String :=
  let contentLower := content.toLower
  if jsIncludes contentLower "error" || jsIncludes contentLower "fix" ||
      jsIncludes contentLower "bug" || jsIncludes contentLower "critical" then
    "high"
  else if jsIncludes contentLower "implement" || jsIncludes contentLower "add" ||
      jsIncludes contentLower "create" || jsIncludes contentLower "build" then
    "medium"
  else if jsIncludes contentLower "document" || jsIncludes contentLower "test" ||
      jsIncludes contentLower "research" || jsIncludes contentLower "review" then
    "low"
  else "medium"

/-! ## Tool-call lifecycle (`handleToolUse`, `handleToolResultMessage`, flush) -/

/-- The `toolMappings` lookup table; `none` is JS `undefined` for unknown names. -/
def toolMappings : String → Option String
  | "Task" => some "other"
  | "Bash" => some "execute"
  | "Glob" => some "search"
  | "Grep" => some "search"
  | "LS" => some "read"
  | "ExitPlanMode" => some "other"
  | "Read" => some "read"
  | "Edit" => some "edit"
  | "MultiEdit" => some "edit"
  | "Write" => some "edit"
  | "NotebookEdit" => some "edit"
  | "WebFetch" => some "fetch"
  | "WebSearch" => some "search"
  | "BashOutput" => some "other"
  | "KillBash" => some "other"
  | _ => none

/-- The fields of a `ToolUseBlock` read by the core. -/
structure ToolUseParam where
  id : String
  name : String
  input : Json

/-- The fields of a `ToolResultBlockParam` read by the core
(`is_error` is optional in the SDK type). -/
structure ToolResultParam where
  tool_use_id : String
  content : String
  is_error : Option Bool

/-- The `tool_call` notification built from a stored `originalToolCall`. -/
def toolCallOf (o : OriginalToolCall) : SessionUpdate :=
  .toolCall o.toolCallId o.title (some o.kind) "pending" o.rawInput o.content

/-- `executeTodoWriteTool`: converts `input.todos` into a `plan` update. -/
def executeTodoWriteTool (toolUse : ToolUseParam) : SessionUpdate :=
  let todos := jsFieldArr toolUse.input "todos"
  .plan (todos.map fun todo =>
    { content := jsFieldDisplay todo "content"
      priority := determinePriority (jsFieldDisplay todo "content")
      status := jsFieldDisplay todo "status" })

/-- `handleToolUse`: register the pending entry, build the preview for
`Edit`/`Write`/`MultiEdit`, emit the `tool_call` notification (plus the `plan`
update for `TodoWrite`). -/
def handleToolUse (s : AgentSession) (toolUse : ToolUseParam) :
    AgentSession × List SessionUpdate :=
  let toolCallId := toolUse.id
  let s := { s with
    pendingToolUses := insertA s.pendingToolUses toolUse.id
      ⟨toolCallId, toolUse.name, toolUse.input, none⟩ }
  if toolUse.name = "Edit" then
    let originalToolCall : OriginalToolCall :=
      { toolCallId := toolCallId
        title := "Editing " ++ jsFieldDisplay toolUse.input "file_path"
        kind := "edit"
        rawInput := toolUse.input
        content := [ToolContent.diff (jsFieldOrDefault toolUse.input "file_path" "")
          (jsFieldOrDefault toolUse.input "old_string" "")
          (jsFieldOrDefault toolUse.input "new_string" "")] }
    let s :=
      match lookupA s.pendingToolUses toolUse.id with
      | some pendingTool =>
          let updated := { pendingTool with originalToolCall := some originalToolCall }
          { s with pendingToolUses := insertA s.pendingToolUses toolUse.id updated }
      | none => s
    (s, [toolCallOf originalToolCall])
  else if toolUse.name = "Write" then
    let originalToolCall : OriginalToolCall :=
      { toolCallId := toolCallId
        title := "Writing to " ++ jsFieldDisplay toolUse.input "file_path"
        kind := "edit"
        rawInput := toolUse.input
        content := [ToolContent.diff (jsFieldOrDefault toolUse.input "file_path" "")
          "" (jsFieldOrDefault toolUse.input "content" "")] }
    let s :=
      match lookupA s.pendingToolUses toolUse.id with
      | some pendingTool =>
          let updated := { pendingTool with originalToolCall := some originalToolCall }
          { s with pendingToolUses := insertA s.pendingToolUses toolUse.id updated }
      | none => s
    (s, [toolCallOf originalToolCall])
  else if toolUse.name = "MultiEdit" then
    let edits := jsFieldArr toolUse.input "edits"
    let originalToolCall : OriginalToolCall :=
      { toolCallId := toolCallId
        title := "Multi-editing " ++ jsFieldDisplay toolUse.input "file_path"
        kind := "edit"
        rawInput := toolUse.input
        content := edits.map fun edit =>
          ToolContent.diff (jsFieldOrDefault toolUse.input "file_path" "")
            (jsFieldOrDefault edit "old_string" "")
            (jsFieldOrDefault edit "new_string" "") }
    let s :=
      match lookupA s.pendingToolUses toolUse.id with
      | some pendingTool =>
          let updated := { pendingTool with originalToolCall := some originalToolCall }
          { s with pendingToolUses := insertA s.pendingToolUses toolUse.id updated }
      | none => s
    (s, [toolCallOf originalToolCall])
  else
    let base := SessionUpdate.toolCall toolCallId
      (toolUse.name ++ "(" ++ formatToolInput toolUse.input ++ ")")
      (toolMappings toolUse.name) "pending" toolUse.input []
    if toolUse.name = "TodoWrite" then
      (s, [base, executeTodoWriteTool toolUse])
    else
      (s, [base])

/-- `handleToolResultMessage`: unknown invocation ids are logged and dropped;
known ones move from `pendingToolUses` to `completedToolCalls` (nothing is
emitted here). -/
def handleToolResultMessage (s : AgentSession) (toolResult : ToolResultParam) :
    AgentSession × List SessionUpdate :=
  let toolUseId := toolResult.tool_use_id
  match lookupA s.pendingToolUses toolUseId with
  | none => (s, [])
  | some pendingTool =>
      let isError := toolResult.is_error == some true
      ({ s with
          completedToolCalls := s.completedToolCalls ++
            [⟨pendingTool.name, pendingTool.toolCallId, toolResult.content,
              pendingTool.originalToolCall, isError⟩]
          pendingToolUses := eraseA s.pendingToolUses toolUseId }, [])

/-- The `tool_call_update` built for one queued completed tool call during the
flush inside `handleTextMessage`. -/
def buildToolCallUpdate (completedTool : CompletedToolCall) : SessionUpdate :=
  let status := if completedTool.isError then "failed" else "completed"
  match completedTool.originalToolCall with
  | some orig =>
      let titleWord :=
        if completedTool.name = "Edit" then "Edited"
        else if completedTool.name = "MultiEdit" then "Multi-edited"
        else "Created"
      .toolCallUpdate completedTool.toolCallId status
        (some (titleWord ++ " " ++ jsFieldOrDefault orig.rawInput "file_path" "file"))
        (some orig.kind) (some orig.rawInput) (some completedTool.toolResult)
        (orig.content ++ [ToolContent.contentText completedTool.toolResult])
  | none =>
      .toolCallUpdate completedTool.toolCallId status none none none none
        [ToolContent.contentText completedTool.toolResult]

/-- `handleTextMessage`: emit the `agent_message_chunk`, then flush the queued
completed tool calls (in FIFO order) and clear the queue. -/
def handleTextMessage (s : AgentSession) (text : String) :
    AgentSession × List SessionUpdate :=
  let chunk := SessionUpdate.agentMessageChunk text
  if s.completedToolCalls.length > 0 then
    ({ s with completedToolCalls := [] },
      chunk :: s.completedToolCalls.map buildToolCallUpdate)
  else
    (s, [chunk])

/-- `handleThinkingMessage`: emit an `agent_thought_chunk`; the completed-tool
queue is not touched. -/
def handleThinkingMessage (s : AgentSession) (thinking : String) :
    AgentSession × List SessionUpdate :=
  (s, [SessionUpdate.agentThoughtChunk thinking])

/-- `handleResultMessage`: no resolver or still-pending tool uses → return
without resolving; otherwise resolve with `end_turn` (`max_tokens` when the
result reports an error) and clear the resolver. -/
def handleResultMessage (s : AgentSession) (isError : Bool) : AgentSession :=
  if !s.promptResolver then s
  else if s.pendingToolUses.length > 0 then s
  else
    let stopReason := if isError then "max_tokens" else "end_turn"
    let s := resolvePromise s stopReason
    { s with promptResolver := false }

/-! ## Upstream messages and block dispatch -/

/-- Upstream content blocks as read by the dispatch switches. The payload of a
block routed to the text/thinking path is the string the handler reads off it
(`.text` / `.thinking`); for `redacted_thinking`, `document`, `image` and
`search_result` the source reads a field those blocks do not carry, so the
payload stands for whatever string value that read produces. -/
inductive ContentBlock where
  | text (t : String)
  | thinking (t : String)
  | redactedThinking (t : String)
  | toolUse (id name : String) (input : Json)
  | serverToolUse (id name : String) (input : Json)
  | toolResult (toolUseId : String) (content : String) (isError : Option Bool)
  | webSearchToolResult (toolUseId : String) (content : String)
  | document (t : String)
  | image (t : String)
  | searchResult (t : String)

/-- The content of an `SDKUserMessage`: a bare string or a block list. -/
inductive UserContent where
  | str (s : String)
  | blocks (bs : List ContentBlock)

/-- The upstream `SDKMessage` variants dispatched by `processClaudeMessage`,
restricted to the fields the core reads. -/
inductive SDKMessage where
  | system (subtype : String) (sessionId : String)
  | assistant (content : List ContentBlock)
  | user (content : UserContent)
  | result (isError : Bool)

/-- Dispatch of one assistant-message content block
(`handleAssistantMessage`'s switch); unhandled variants are skipped. -/
def handleAssistantBlock (s : AgentSession) (b : ContentBlock) :
    AgentSession × List SessionUpdate :=
  match b with
  | .text t => handleTextMessage s t
  | .thinking t => handleThinkingMessage s t
  | .redactedThinking t => handleThinkingMessage s t
  | .serverToolUse id name input => handleToolUse s ⟨id, name, input⟩
  | .toolUse id name input => handleToolUse s ⟨id, name, input⟩
  | .webSearchToolResult id content => handleToolResultMessage s ⟨id, content, none⟩
  | _ => (s, [])

/-- Dispatch of one user-message content block (`handleUserMessage`'s switch);
`document`/`image`/`search_result` are delegated to the text path. -/
def handleUserBlock (s : AgentSession) (b : ContentBlock) :
    AgentSession × List SessionUpdate :=
  match b with
  | .text t => handleTextMessage s t
  | .toolResult id content isError => handleToolResultMessage s ⟨id, content, isError⟩
  | .thinking t => handleThinkingMessage s t
  | .redactedThinking t => handleThinkingMessage s t
  | .serverToolUse id name input => handleToolUse s ⟨id, name, input⟩
  | .toolUse id name input => handleToolUse s ⟨id, name, input⟩
  | .webSearchToolResult id content => handleToolResultMessage s ⟨id, content, none⟩
  | .document t => handleTextMessage s t
  | .image t => handleTextMessage s t
  | .searchResult t => handleTextMessage s t

/-- Left-to-right iteration over a message's content blocks, collecting the
emitted updates in order. -/
def runBlocks (f : AgentSession → ContentBlock → AgentSession × List SessionUpdate) :
    AgentSession → List ContentBlock → AgentSession × List SessionUpdate
  | s, [] => (s, [])
  | s, b :: rest =>
      let r := f s b
      let r2 := runBlocks f r.1 rest
      (r2.1, r.2 ++ r2.2)

/-! ## Agent-level state and message processing -/

/-- Agent-level mutable state: the session store, the upstream-to-client id
map and the set of session ids with an active upstream query. -/
structure AgentState where
  sessions : List (String × AgentSession)
  claudeSessionToClientSession : List (String × String)
  activeQueries : List String

/-- The state of a freshly created session (`newSession`). -/
def freshSession : AgentSession :=
  { claudeSessionId := none
    pendingPrompt := false
    promptResolver := false
    promptOutcome := none
    pendingToolUses := []
    completedToolCalls := []
    cancelled := false }

/-- The agent before any session exists. -/
def emptyAgentState : AgentState :=
  { sessions := [], claudeSessionToClientSession := [], activeQueries := [] }

/-- `newSession` with the freshly generated id. -/
def newSession (st : AgentState) (sessionId : String) : AgentState :=
  { st with sessions := insertA st.sessions sessionId freshSession }

/-- `handleSystemMessage`: on an `init` event carrying a (truthy) upstream
session id, store it on the session and extend the upstream-to-client map. -/
def handleSystemMessage (st : AgentState) (sessionId : String)
    (subtype claudeSessionId : String) : AgentState :=
  if subtype = "init" ∧ claudeSessionId ≠ "" then
    match lookupA st.sessions sessionId with
    | some session =>
        let session' := { session with claudeSessionId := some claudeSessionId }
        { st with
          sessions := insertA st.sessions sessionId session'
          claudeSessionToClientSession :=
            insertA st.claudeSessionToClientSession claudeSessionId sessionId }
    | none => st
  else st

/-- `processClaudeMessage`: drop events for unknown or cancelled sessions, then
dispatch by message type. Outputs are tagged with the client session id they
are notified under. -/
def processClaudeMessage (st : AgentState) (sessionId : String) (msg : SDKMessage) :
    AgentState × List (String × SessionUpdate) :=
  match lookupA st.sessions sessionId with
  | none => (st, [])
  | some session =>
      if session.cancelled then (st, [])
      else
        match msg with
        | .system subtype claudeSessionId =>
            (handleSystemMessage st sessionId subtype claudeSessionId, [])
        | .assistant blocks =>
            let r := runBlocks handleAssistantBlock session blocks
            ({ st with sessions := insertA st.sessions sessionId r.1 },
              r.2.map fun u => (sessionId, u))
        | .user (.str t) =>
            let r := handleTextMessage session t
            ({ st with sessions := insertA st.sessions sessionId r.1 },
              r.2.map fun u => (sessionId, u))
        | .user (.blocks blocks) =>
            let r := runBlocks handleUserBlock session blocks
            ({ st with sessions := insertA st.sessions sessionId r.1 },
              r.2.map fun u => (sessionId, u))
        | .result isError =>
            let session' := handleResultMessage session isError
            ({ st with sessions := insertA st.sessions sessionId session' }, [])

/-! ## Client-prompt content conversion (the loop inside `prompt`) -/

/-- Client prompt content parts (ACP `ContentBlock` variants); `audio` is the
variant the conversion loop has no branch for. -/
inductive PromptPart where
  | text (t : String)
  | image (data mimeType : String)
  | resourceLink (uri : String)
  | resourceText (text : String) (mimeType : Option String)
  | resourceBlob (blob : String) (mimeType : Option String)
  | resourceNone (uri : String)
  | audio (data : String)

/-- Entries pushed onto `claudeContent` by the conversion loop. -/
inductive ClaudeContent where
  | text (t : String)
  | image (data mediaType : String)
  | documentText (data mediaType : String)
  | documentBase64 (data mediaType : String)
  | passthrough (item : PromptPart)

/-- `mimeType || dflt` on the optional ACP mime type. -/
def mimeOrDefault (m : Option String) (dflt : String) : String :=
  match m with
  | some s => if s = "" then dflt else s
  | none => dflt

/-- JS `uri.replace("file://", "")`: remove the first occurrence only. -/
def stripFirstOccurrence (s pat : String) : String :=
  match s.splitOn pat with
  | [] => s
  | [x] => x
  | x :: y :: rest => x ++ String.intercalate pat (y :: rest)

/-- The conversion applied to a single prompt part; `none` = the part is
skipped (no branch of the if-chain pushes anything).  `readTextFile` models
the `fs/read_text_file` round trip to the client (`none` = the request
failed); `caps` models `clientCapabilities?.fs?.readTextFile`. -/
def convertPromptItem (caps : Bool) (readTextFile : String → Option String) :
    PromptPart → Option ClaudeContent
  | .text t => some (.text t)
  | .image data mimeType => some (.image data mimeType)
  | .resourceLink uri =>
      if caps then
        match readTextFile (stripFirstOccurrence uri "file://") with
        | some fileContent =>
            some (.text ("File: " ++ uri ++ "\n```\n" ++ fileContent ++ "\n```"))
        | none => some (.passthrough (.resourceLink uri))
      else some (.passthrough (.resourceLink uri))
  | .resourceText t mimeType => some (.documentText t (mimeOrDefault mimeType "text/plain"))
  | .resourceBlob b mimeType =>
      some (.documentBase64 b (mimeOrDefault mimeType "application/octet-stream"))
  | .resourceNone uri => some (.passthrough (.resourceNone uri))
  | .audio _ => none

/-- The `for (const item of params.prompt)` loop of `prompt`, building
`claudeContent` by successive pushes. -/
def buildClaudeContent (caps : Bool) (readTextFile : String → Option String) :
    List PromptPart → List ClaudeContent
  | [] => []
  | item :: rest =>
      match item with
      | .text t => .text t :: buildClaudeContent caps readTextFile rest
      | .image data mimeType => .image data mimeType :: buildClaudeContent caps readTextFile rest
      | .resourceLink uri =>
          (if caps then
            match readTextFile (stripFirstOccurrence uri "file://") with
            | some fileContent =>
                ClaudeContent.text ("File: " ++ uri ++ "\n```\n" ++ fileContent ++ "\n```")
            | none => ClaudeContent.passthrough (.resourceLink uri)
          else ClaudeContent.passthrough (.resourceLink uri)) ::
            buildClaudeContent caps readTextFile rest
      | .resourceText t mimeType =>
          .documentText t (mimeOrDefault mimeType "text/plain") ::
            buildClaudeContent caps readTextFile rest
      | .resourceBlob b mimeType =>
          .documentBase64 b (mimeOrDefault mimeType "application/octet-stream") ::
            buildClaudeContent caps readTextFile rest
      | .resourceNone uri =>
          .passthrough (.resourceNone uri) :: buildClaudeContent caps readTextFile rest
      | .audio _ => buildClaudeContent caps readTextFile rest

/-! ## Turn orchestration (`prompt`, `cancel`) -/

/-- Request-level errors surfaced to the caller (a thrown JS `Error`). -/
inductive ReqError where
  | sessionNotFound

/-- `prompt`: require the session, abort a prior in-flight turn (its abort
listener nulls the resolver and settles the old promise with `cancelled`),
reset `cancelled`, convert the content, start the upstream query and register
a fresh resolver for a fresh promise.  Returns the converted content alongside
the new state. -/
def promptRequest (caps : Bool) (readTextFile : String → Option String)
    (st : AgentState) (sessionId : String) (parts : List PromptPart) :
    Except ReqError (AgentState × List ClaudeContent) :=
  match lookupA st.sessions sessionId with
  | none => .error .sessionNotFound
  | some session =>
      let session :=
        if session.pendingPrompt then
          { resolvePromise session "cancelled" with promptResolver := false }
        else session
      let session := { session with pendingPrompt := true, cancelled := false }
      let claudeContent := buildClaudeContent caps readTextFile parts
      let session := { session with promptResolver := true, promptOutcome := none }
      .ok ({ st with
              sessions := insertA st.sessions sessionId session
              activeQueries := insertList st.activeQueries sessionId },
            claudeContent)
where
  /-- `activeQueries.set(sessionId, …)` restricted to the key set. -/
  insertList (l : List String) (x : String) : List String :=
    if x ∈ l then l else l ++ [x]

/-- `cancel`: unknown ids are logged and the notification returns without
error.  Otherwise: set `cancelled`, stop the active query, settle a pending
resolution with `cancelled`, fire the abort listener (which nulls the resolver
and settles the already-settled promise again, a no-op), drop the upstream-id
mapping and clear all pending state.  The session stays in the store. -/
def cancelRequest (st : AgentState) (sessionId : String) :
    Except ReqError AgentState :=
  match lookupA st.sessions sessionId with
  | none => .ok st
  | some session =>
      let session := { session with cancelled := true }
      let st := { st with activeQueries := st.activeQueries.erase sessionId }
      let session :=
        if session.promptResolver then resolvePromise session "cancelled" else session
      let session :=
        if session.pendingPrompt then
          { resolvePromise session "cancelled" with promptResolver := false }
        else session
      let claudeMap :=
        match session.claudeSessionId with
        | some cid => eraseA st.claudeSessionToClientSession cid
        | none => st.claudeSessionToClientSession
      let session := { session with
        pendingPrompt := false
        promptResolver := false
        pendingToolUses := []
        completedToolCalls := [] }
      .ok { st with
        sessions := insertA st.sessions sessionId session
        claudeSessionToClientSession := claudeMap }

/-! ## Traces of agent operations -/

/-- One externally triggered step: an upstream event for a session, or a
client request. -/
inductive AgentOp where
  | upstream (sessionId : String) (msg : SDKMessage)
  | clientNewSession (sessionId : String)
  | clientPrompt (sessionId : String) (parts : List PromptPart)
  | clientCancel (sessionId : String)

/-- Effect of one operation on the agent state, with the session updates it
emits (client requests emit none). -/
def stepOp (caps : Bool) (readTextFile : String → Option String)
    (st : AgentState) (op : AgentOp) : AgentState × List (String × SessionUpdate) :=
  match op with
  | .upstream sessionId msg => processClaudeMessage st sessionId msg
  | .clientNewSession sessionId => (newSession st sessionId, [])
  | .clientPrompt sessionId parts =>
      match promptRequest caps readTextFile st sessionId parts with
      | .ok (st', _) => (st', [])
      | .error _ => (st, [])
  | .clientCancel sessionId =>
      match cancelRequest st sessionId with
      | .ok st' => (st', [])
      | .error _ => (st, [])

/-- Run a trace of operations, concatenating the emitted updates. -/
def runOps (caps : Bool) (readTextFile : String → Option String) :
    AgentState → List AgentOp → AgentState × List (String × SessionUpdate)
  | st, [] => (st, [])
  | st, op :: rest =>
      let r := stepOp caps readTextFile st op
      let r2 := runOps caps readTextFile r.1 rest
      (r2.1, r.2 ++ r2.2)

/-! ## Auxiliary lemmas -/

theorem insertA_lookup_eq {α : Type} (l : List (String × α)) (k : String) (v : α)
    (h : lookupA l k = some v) : insertA l k v = l := by
  induction l with
  | nil => simp [lookupA] at h
  | cons hd tl ih =>
      obtain ⟨k0, v0⟩ := hd
      by_cases h0 : k0 = k
      · subst h0
        simp [lookupA] at h
        simp [insertA, h]
      · simp [lookupA, h0] at h
        simp [insertA, h0, ih h]

theorem getLast?_append_singleton {α : Type} (l : List α) (a : α) :
    (l ++ [a]).getLast? = some a := by
  rw [List.getLast?_append_cons]
  simp

/-- Whether an `SDKMessage` is a system message. -/
def SDKMessage.isSystem : SDKMessage → Bool
  | .system _ _ => true
  | _ => false

/-! ## Claim C9 -/

/-- C9: a tool-result event whose invocation id has no entry in the session's
`pendingToolUses` map is logged and discarded — no client update is emitted and
the session state (in particular the pending map and the completed-tool queue)
is unchanged. -/
theorem unknownToolResultDropped (s : AgentSession) (tr : ToolResultParam)
    (h : lookupA s.pendingToolUses tr.tool_use_id = none) :
    handleToolResultMessage s tr = (s, []) := by
  simp [handleToolResultMessage, h]

/-- Concrete instance of `unknownToolResultDropped`: a fresh session has no
pending entry for id `"t1"`, and the tool result for it is dropped. -/
theorem unknownToolResultDroppedWitness :
    handleToolResultMessage freshSession ⟨"t1", "out", none⟩ = (freshSession, []) :=
  unknownToolResultDropped freshSession ⟨"t1", "out", none⟩ rfl

/-! ## Claim C1 -/

/-- C1: processing a terminal result event while the session's
`pendingToolUses` map is non-empty leaves the agent state unchanged and emits
nothing (the pending prompt resolution is not invoked); and whenever result
processing changes the prompt's settle cell at all, the pending set was
empty. -/
theorem resultWaitsForPendingTools (st : AgentState) (sessionId : String)
    (isError : Bool) (s : AgentSession)
    (hs : lookupA st.sessions sessionId = some s) :
    (s.pendingToolUses ≠ [] →
      processClaudeMessage st sessionId (.result isError) = (st, [])) ∧
    (∀ s', lookupA (processClaudeMessage st sessionId (.result isError)).1.sessions
        sessionId = some s' →
      s'.promptOutcome ≠ s.promptOutcome → s.pendingToolUses = []) := by
  by_cases hc : s.cancelled
  · constructor
    · intro _
      simp [processClaudeMessage, hs, hc]
    · intro s' hs' hne
      simp [processClaudeMessage, hs, hc] at hs'
      subst hs'
      exact absurd rfl hne
  · have hproc : processClaudeMessage st sessionId (.result isError) =
        ({ st with sessions :=
            insertA st.sessions sessionId (handleResultMessage s isError) }, []) := by
      simp [processClaudeMessage, hs, hc]
    constructor
    · intro hne
      have hlen : s.pendingToolUses.length > 0 := List.length_pos.mpr hne
      have hres : handleResultMessage s isError = s := by
        unfold handleResultMessage
        by_cases hr : s.promptResolver <;> simp [hr, hlen]
      rw [hproc, hres, insertA_lookup_eq st.sessions sessionId s hs]
    · intro s' hs' hne
      rw [hproc] at hs'
      simp [lookupA_insertA_self] at hs'
      subst hs'
      unfold handleResultMessage at hne
      by_cases hr : s.promptResolver
      · by_cases hlen : s.pendingToolUses.length > 0
        · simp [hr, hlen] at hne
        · exact List.length_eq_zero.mp (Nat.eq_zero_of_not_pos hlen)
      · simp [hr] at hne

/-- The session used in the concrete instance of C1: one pending tool use and
a registered resolver. -/
def pendingToolSession : AgentSession :=
  { freshSession with
      promptResolver := true
      pendingToolUses := [("t1", ⟨"t1", "Read", Json.jnull, none⟩)] }

/-- The agent state used in the concrete instance of C1. -/
def pendingToolState : AgentState :=
  { sessions := [("s1", pendingToolSession)]
    claudeSessionToClientSession := []
    activeQueries := [] }

/-- Concrete instance of `resultWaitsForPendingTools`. -/
theorem resultWaitsForPendingToolsWitness :
    (pendingToolSession.pendingToolUses ≠ [] →
      processClaudeMessage pendingToolState "s1" (.result false) = (pendingToolState, [])) ∧
    (∀ s', lookupA (processClaudeMessage pendingToolState "s1" (.result false)).1.sessions
        "s1" = some s' →
      s'.promptOutcome ≠ pendingToolSession.promptOutcome →
      pendingToolSession.pendingToolUses = []) :=
  resultWaitsForPendingTools pendingToolState "s1" false pendingToolSession rfl

/-! ## Claim C6 -/

/-- C6: a terminal result event processed with no pending tool invocations, an
unsettled prompt and a registered resolver settles the prompt with `end_turn`
when the result does not report an error, and with the error-equivalent reason
(`max_tokens`, distinct from `end_turn`) when it does, and clears the
resolver. -/
theorem resultResolvesPrompt (st : AgentState) (sessionId : String)
    (isError : Bool) (s : AgentSession)
    (hs : lookupA st.sessions sessionId = some s) (hc : s.cancelled = false)
    (hr : s.promptResolver = true) (hp : s.pendingToolUses = [])
    (ho : s.promptOutcome = none) :
    ∃ s', lookupA (processClaudeMessage st sessionId (.result isError)).1.sessions
        sessionId = some s' ∧
      s'.promptOutcome = some (if isError then "max_tokens" else "end_turn") ∧
      s'.promptResolver = false ∧
      (isError = true → s'.promptOutcome ≠ some "end_turn") := by
  refine ⟨handleResultMessage s isError, ?_, ?_, ?_, ?_⟩
  · simp [processClaudeMessage, hs, hc, lookupA_insertA_self]
  · simp [handleResultMessage, hr, hp, resolvePromise, ho]
  · simp [handleResultMessage, hr, hp, resolvePromise, ho]
  · intro hie
    simp [handleResultMessage, hr, hp, resolvePromise, ho, hie]

/-- The session used in the concrete instance of C6: resolver registered,
nothing pending, prompt unsettled. -/
def readyToResolveSession : AgentSession :=
  { freshSession with promptResolver := true }

/-- The agent state used in the concrete instance of C6. -/
def readyToResolveState : AgentState :=
  { sessions := [("s1", readyToResolveSession)]
    claudeSessionToClientSession := []
    activeQueries := [] }

/-- Concrete instance of `resultResolvesPrompt` (error case). -/
theorem resultResolvesPromptWitness :
    ∃ s', lookupA (processClaudeMessage readyToResolveState "s1" (.result true)).1.sessions
        "s1" = some s' ∧
      s'.promptOutcome = some (if true then "max_tokens" else "end_turn") ∧
      s'.promptResolver = false ∧
      (true = true → s'.promptOutcome ≠ some "end_turn") :=
  resultResolvesPrompt readyToResolveState "s1" true readyToResolveSession rfl rfl rfl rfl rfl

/-! ## Claim C5 (corrected) -/

/-- C5 counterexample: with one queued completed tool call, the next text chunk
is emitted FIRST and the `tool_call_update` flushed AFTER it (not "just
before" it), and a thought chunk does not flush the queue at all. -/
def queuedToolSession : AgentSession :=
  { freshSession with completedToolCalls := [⟨"Read", "t1", "out", none, false⟩] }

/-- C5 is false as stated: on `queuedToolSession` the flushed update follows
the `agent_message_chunk` in the emitted sequence, and processing a thought
chunk leaves the completed-tool queue untouched instead of flushing it. -/
theorem flushBeforeChunkCounterexample :
    (handleTextMessage queuedToolSession "hello").2 =
      [SessionUpdate.agentMessageChunk "hello",
        SessionUpdate.toolCallUpdate "t1" "completed" none none none none
          [ToolContent.contentText "out"]] ∧
    (handleThinkingMessage queuedToolSession "th").2 =
      [SessionUpdate.agentThoughtChunk "th"] ∧
    (handleThinkingMessage queuedToolSession "th").1.completedToolCalls ≠ [] := by
  refine ⟨rfl, rfl, ?_⟩
  simp [handleThinkingMessage, queuedToolSession]

/-- C5 amended: completed tool outcomes are not emitted at tool-result
arrival; they are flushed as `tool_call_update` notifications immediately
AFTER the next text chunk is sent (thought chunks do not flush), in original
completion order (FIFO), and the completed-tool queue is empty after the
flush. -/
theorem completedToolFlushPolicy :
    (∀ s tr, (handleToolResultMessage s tr).2 = []) ∧
    (∀ s text, handleTextMessage s text =
      ({ s with completedToolCalls := [] },
        SessionUpdate.agentMessageChunk text ::
          s.completedToolCalls.map buildToolCallUpdate)) ∧
    (∀ s t, handleThinkingMessage s t =
      (s, [SessionUpdate.agentThoughtChunk t])) := by
  refine ⟨?_, ?_, fun s t => rfl⟩
  · intro s tr
    cases h : lookupA s.pendingToolUses tr.tool_use_id <;>
      simp [handleToolResultMessage, h]
  · intro s text
    cases h : s.completedToolCalls with
    | nil =>
        simp [handleTextMessage, h]
        cases s
        simp_all
    | cons c cs => simp [handleTextMessage, h]

/-! ## Claim C8 (corrected) -/

/-- C8 counterexample: on an unknown session id, `prompt` throws the
not-found error but `cancel` completes normally (fire-and-forget) with the
state unchanged — it does not fail with a request error as claimed. -/
theorem cancelUnknownNoErrorCounterexample :
    cancelRequest emptyAgentState "nope" = .ok emptyAgentState ∧
    promptRequest false (fun _ => none) emptyAgentState "nope" [] =
      .error .sessionNotFound :=
  ⟨rfl, rfl⟩

/-- C8 amended: for a session id not in the store, `prompt` fails with the
not-found request error surfaced to the caller, while `cancel` logs the
unknown id and returns without error, leaving the state unchanged. -/
theorem unknownSessionRequests (st : AgentState) (sessionId : String)
    (h : lookupA st.sessions sessionId = none) :
    (∀ caps readTextFile parts,
      promptRequest caps readTextFile st sessionId parts = .error .sessionNotFound) ∧
    cancelRequest st sessionId = .ok st := by
  constructor
  · intro caps readTextFile parts
    simp [promptRequest, h]
  · simp [cancelRequest, h]

/-- Concrete instance of `unknownSessionRequests`. -/
theorem unknownSessionRequestsWitness :
    (∀ caps readTextFile parts,
      promptRequest caps readTextFile emptyAgentState "nope" parts =
        .error .sessionNotFound) ∧
    cancelRequest emptyAgentState "nope" = .ok emptyAgentState :=
  unknownSessionRequests emptyAgentState "nope" rfl

/-! ## Structural lemmas about the handlers -/

/-- `handleToolUse` only replaces the pending entry for the invocation id
(with an entry whose client call id IS that id), and emits a `tool_call`
notification for that id first, followed by at most a `plan` update. -/
theorem handleToolUse_shape (s : AgentSession) (tu : ToolUseParam) :
    (∃ e : PendingToolUse, e.toolCallId = tu.id ∧
      (handleToolUse s tu).1 =
        { s with pendingToolUses := insertA s.pendingToolUses tu.id e }) ∧
    (∃ title kind rawIn cont rest,
      (handleToolUse s tu).2 =
        SessionUpdate.toolCall tu.id title kind "pending" rawIn cont :: rest ∧
      (rest = [] ∨ ∃ es, rest = [SessionUpdate.plan es])) := by
  unfold handleToolUse
  by_cases h1 : tu.name = "Edit"
  · simp only [h1, if_true, lookupA_insertA_self, insertA_insertA, toolCallOf]
    exact ⟨⟨_, rfl, rfl⟩, _, _, _, _, [], rfl, Or.inl rfl⟩
  · by_cases h2 : tu.name = "Write"
    · simp only [h1, h2, if_false, if_true, lookupA_insertA_self, insertA_insertA,
        toolCallOf]
      exact ⟨⟨_, rfl, rfl⟩, _, _, _, _, [], rfl, Or.inl rfl⟩
    · by_cases h3 : tu.name = "MultiEdit"
      · simp only [h1, h2, h3, if_false, if_true, lookupA_insertA_self,
          insertA_insertA, toolCallOf]
        exact ⟨⟨_, rfl, rfl⟩, _, _, _, _, [], rfl, Or.inl rfl⟩
      · by_cases h4 : tu.name = "TodoWrite"
        · simp only [h1, h2, h3, h4, if_false, if_true]
          exact ⟨⟨_, rfl, rfl⟩, _, _, _, _, _, rfl, Or.inr ⟨_, rfl⟩⟩
        · simp only [h1, h2, h3, h4, if_false]
          exact ⟨⟨_, rfl, rfl⟩, _, _, _, _, [], rfl, Or.inl rfl⟩

theorem handleToolUse_claudeSessionId (s : AgentSession) (tu : ToolUseParam) :
    (handleToolUse s tu).1.claudeSessionId = s.claudeSessionId := by
  obtain ⟨⟨e, _, he⟩, _⟩ := handleToolUse_shape s tu
  rw [he]

theorem handleToolResultMessage_claudeSessionId (s : AgentSession)
    (tr : ToolResultParam) :
    (handleToolResultMessage s tr).1.claudeSessionId = s.claudeSessionId := by
  cases h : lookupA s.pendingToolUses tr.tool_use_id <;>
    simp [handleToolResultMessage, h]

theorem handleTextMessage_claudeSessionId (s : AgentSession) (t : String) :
    (handleTextMessage s t).1.claudeSessionId = s.claudeSessionId := by
  unfold handleTextMessage
  by_cases h : s.completedToolCalls.length > 0 <;> simp [h]

theorem handleResultMessage_claudeSessionId (s : AgentSession) (isError : Bool) :
    (handleResultMessage s isError).claudeSessionId = s.claudeSessionId := by
  unfold handleResultMessage resolvePromise
  by_cases hr : !s.promptResolver
  · simp [hr]
  · by_cases hp : s.pendingToolUses.length > 0
    · simp [hr, hp]
    · cases ho : s.promptOutcome <;> simp [hr, hp, ho]

theorem handleAssistantBlock_claudeSessionId (s : AgentSession) (b : ContentBlock) :
    (handleAssistantBlock s b).1.claudeSessionId = s.claudeSessionId := by
  cases b <;>
    simp [handleAssistantBlock, handleTextMessage_claudeSessionId,
      handleThinkingMessage, handleToolUse_claudeSessionId,
      handleToolResultMessage_claudeSessionId]

theorem handleUserBlock_claudeSessionId (s : AgentSession) (b : ContentBlock) :
    (handleUserBlock s b).1.claudeSessionId = s.claudeSessionId := by
  cases b <;>
    simp [handleUserBlock, handleTextMessage_claudeSessionId,
      handleThinkingMessage, handleToolUse_claudeSessionId,
      handleToolResultMessage_claudeSessionId]

theorem runBlocks_claudeSessionId
    (f : AgentSession → ContentBlock → AgentSession × List SessionUpdate)
    (hf : ∀ s b, (f s b).1.claudeSessionId = s.claudeSessionId) :
    ∀ (blocks : List ContentBlock) (s : AgentSession),
      (runBlocks f s blocks).1.claudeSessionId = s.claudeSessionId := by
  intro blocks
  induction blocks with
  | nil => intro s; rfl
  | cons b rest ih =>
      intro s
      simp only [runBlocks]
      rw [ih (f s b).1, hf]

/-! ## Claim C7 (corrected) -/

/-- The agent state used in the C7 counterexample: session `"s1"` already
bound to upstream id `"a"`. -/
def boundSessionState : AgentState :=
  { sessions := [("s1", { freshSession with claudeSessionId := some "a" })]
    claudeSessionToClientSession := [("a", "s1")]
    activeQueries := [] }

/-- C7 is false as stated: a later `system`/`init` event carrying a different
upstream session id overwrites the already-set `claudeSessionId` (and inserts
a second mapping entry while the old one survives). -/
theorem initOverwritesClaudeSessionIdCounterexample :
    ((lookupA boundSessionState.sessions "s1").map (·.claudeSessionId)
      = some (some "a")) ∧
    ((lookupA (processClaudeMessage boundSessionState "s1"
        (.system "init" "b")).1.sessions "s1").map (·.claudeSessionId)
      = some (some "b")) ∧
    (some "b" : Option String) ≠ some "a" ∧
    lookupA (processClaudeMessage boundSessionState "s1"
        (.system "init" "b")).1.claudeSessionToClientSession "a" = some "s1" ∧
    lookupA (processClaudeMessage boundSessionState "s1"
        (.system "init" "b")).1.claudeSessionToClientSession "b" = some "s1" := by
  refine ⟨rfl, rfl, ?_, rfl, rfl⟩
  simp

/-- C7 amended: a `system`/`init` event carrying a non-empty upstream session
id received for a live, non-cancelled session always sets `claudeSessionId` to
that id (also when it was already set — a later init with a different id
overwrites it, and the mapping entry is inserted without removing the old
one); events of the other message types never change `claudeSessionId`. -/
theorem claudeSessionIdOnlySetByInit (st : AgentState) (sessionId : String)
    (cid : String) (s : AgentSession)
    (hs : lookupA st.sessions sessionId = some s) (hc : s.cancelled = false)
    (hcid : cid ≠ "") :
    (∃ s', lookupA (processClaudeMessage st sessionId
          (.system "init" cid)).1.sessions sessionId = some s' ∧
        s'.claudeSessionId = some cid ∧
        lookupA (processClaudeMessage st sessionId
          (.system "init" cid)).1.claudeSessionToClientSession cid
          = some sessionId) ∧
    (∀ (st' : AgentState) (msg : SDKMessage), msg.isSystem = false →
      ∀ sid0 s0, lookupA st'.sessions sid0 = some s0 →
      ∀ s1, lookupA (processClaudeMessage st' sid0 msg).1.sessions sid0 = some s1 →
      s1.claudeSessionId = s0.claudeSessionId) := by
  constructor
  · refine ⟨{ s with claudeSessionId := some cid }, ?_, rfl, ?_⟩
    · simp [processClaudeMessage, hs, hc, handleSystemMessage, hcid,
        lookupA_insertA_self]
    · simp [processClaudeMessage, hs, hc, handleSystemMessage, hcid,
        lookupA_insertA_self]
  · intro st' msg hmsg sid0 s0 hs0 s1 hs1
    cases msg with
    | system subtype cid0 => simp [SDKMessage.isSystem] at hmsg
    | assistant blocks =>
        by_cases hc0 : s0.cancelled
        · simp [processClaudeMessage, hs0, hc0] at hs1
          rw [← hs1]
        · simp [processClaudeMessage, hs0, hc0, lookupA_insertA_self] at hs1
          subst hs1
          exact runBlocks_claudeSessionId handleAssistantBlock
            handleAssistantBlock_claudeSessionId blocks s0
    | user c =>
        by_cases hc0 : s0.cancelled
        · cases c <;> simp [processClaudeMessage, hs0, hc0] at hs1 <;> rw [← hs1]
        · cases c with
          | str t =>
              simp [processClaudeMessage, hs0, hc0, lookupA_insertA_self] at hs1
              subst hs1
              exact handleTextMessage_claudeSessionId s0 t
          | blocks bs =>
              simp [processClaudeMessage, hs0, hc0, lookupA_insertA_self] at hs1
              subst hs1
              exact runBlocks_claudeSessionId handleUserBlock
                handleUserBlock_claudeSessionId bs s0
    | result isError =>
        by_cases hc0 : s0.cancelled
        · simp [processClaudeMessage, hs0, hc0] at hs1
          rw [← hs1]
        · simp [processClaudeMessage, hs0, hc0, lookupA_insertA_self] at hs1
          subst hs1
          exact handleResultMessage_claudeSessionId s0 isError

/-- Concrete instance of `claudeSessionIdOnlySetByInit` (on a fresh, unbound
session). -/
def unboundSessionState : AgentState :=
  { sessions := [("s1", freshSession)]
    claudeSessionToClientSession := []
    activeQueries := [] }

/-- Concrete instance of the amended C7 on `unboundSessionState`. -/
theorem claudeSessionIdOnlySetByInitWitness :
    (∃ s', lookupA (processClaudeMessage unboundSessionState "s1"
          (.system "init" "c1")).1.sessions "s1" = some s' ∧
        s'.claudeSessionId = some "c1" ∧
        lookupA (processClaudeMessage unboundSessionState "s1"
          (.system "init" "c1")).1.claudeSessionToClientSession "c1"
          = some "s1") ∧
    (∀ (st' : AgentState) (msg : SDKMessage), msg.isSystem = false →
      ∀ sid0 s0, lookupA st'.sessions sid0 = some s0 →
      ∀ s1, lookupA (processClaudeMessage st' sid0 msg).1.sessions sid0 = some s1 →
      s1.claudeSessionId = s0.claudeSessionId) :=
  claudeSessionIdOnlySetByInit unboundSessionState "s1" "c1" freshSession rfl rfl
    (by simp)

/-! ## Claim C2 -/

/-- Exact result of `cancelRequest` on a session with a registered resolver
and an unsettled prompt. -/
theorem cancelRequest_eq (st : AgentState) (sessionId : String) (s : AgentSession)
    (hs : lookupA st.sessions sessionId = some s)
    (hres : s.promptResolver = true) (hout : s.promptOutcome = none) :
    cancelRequest st sessionId = .ok
      { sessions := insertA st.sessions sessionId
          { claudeSessionId := s.claudeSessionId
            pendingPrompt := false
            promptResolver := false
            promptOutcome := some "cancelled"
            pendingToolUses := []
            completedToolCalls := []
            cancelled := true }
        claudeSessionToClientSession :=
          match s.claudeSessionId with
          | some cid => eraseA st.claudeSessionToClientSession cid
          | none => st.claudeSessionToClientSession
        activeQueries := st.activeQueries.erase sessionId } := by
  by_cases hp : s.pendingPrompt <;>
    cases hcsi : s.claudeSessionId <;>
      simp [cancelRequest, hs, hres, hout, hp, hcsi, resolvePromise]

/-- Exact result of `promptRequest` on an existing session. -/
theorem promptRequest_eq (caps : Bool) (readTextFile : String → Option String)
    (st : AgentState) (sessionId : String) (parts : List PromptPart)
    (s : AgentSession) (hs : lookupA st.sessions sessionId = some s) :
    promptRequest caps readTextFile st sessionId parts = .ok
      ({ st with
          sessions := insertA st.sessions sessionId
            { claudeSessionId := s.claudeSessionId
              pendingPrompt := true
              promptResolver := true
              promptOutcome := none
              pendingToolUses := s.pendingToolUses
              completedToolCalls := s.completedToolCalls
              cancelled := false }
          activeQueries := promptRequest.insertList st.activeQueries sessionId },
        buildClaudeContent caps readTextFile parts) := by
  by_cases hp : s.pendingPrompt <;>
    cases ho : s.promptOutcome <;>
      simp [promptRequest, hs, hp, ho, resolvePromise]

/-- A session lookup suffices for `promptRequest` to succeed. -/
theorem promptRequest_ok (caps : Bool) (readTextFile : String → Option String)
    (st : AgentState) (sessionId : String) (parts : List PromptPart)
    (s : AgentSession) (hs : lookupA st.sessions sessionId = some s) :
    ∃ st' content,
      promptRequest caps readTextFile st sessionId parts = .ok (st', content) :=
  ⟨_, _, promptRequest_eq caps readTextFile st sessionId parts s hs⟩

/-- C2: cancelling a session whose prompt is in flight (resolver registered,
promise unsettled) settles that prompt with stop reason `cancelled` — exactly
once, since the settle cell accepts only the first resolution — and afterwards
the pending-tool map and completed-tool queue are empty, the resolver is
cleared, the upstream-to-client mapping entry for the session is removed, and
the session itself remains in the store and accepts a new prompt. -/
theorem cancelResolvesAndClears (st : AgentState) (sessionId : String)
    (s : AgentSession) (hs : lookupA st.sessions sessionId = some s)
    (hres : s.promptResolver = true) (hout : s.promptOutcome = none) :
    ∃ st', cancelRequest st sessionId = .ok st' ∧
      ∃ s', lookupA st'.sessions sessionId = some s' ∧
        s'.promptOutcome = some "cancelled" ∧
        s'.promptResolver = false ∧
        s'.pendingToolUses = [] ∧
        s'.completedToolCalls = [] ∧
        (∀ cid, s.claudeSessionId = some cid →
          lookupA st'.claudeSessionToClientSession cid = none) ∧
        (∀ caps readTextFile parts, ∃ st'' content,
          promptRequest caps readTextFile st' sessionId parts = .ok (st'', content)) := by
  refine ⟨_, cancelRequest_eq st sessionId s hs hres hout, ?_⟩
  refine ⟨_, lookupA_insertA_self _ _ _, rfl, rfl, rfl, rfl, ?_, ?_⟩
  · intro cid hcid
    simp only [hcid]
    exact lookupA_eraseA_self _ _
  · intro caps readTextFile parts
    exact promptRequest_ok caps readTextFile _ sessionId parts _
      (lookupA_insertA_self _ _ _)

/-- The session used in the concrete instance of C2: in-flight prompt, one
pending tool use, one queued outcome, a bound upstream id. -/
def inFlightSession : AgentSession :=
  { claudeSessionId := some "c1"
    pendingPrompt := true
    promptResolver := true
    promptOutcome := none
    pendingToolUses := [("t1", ⟨"t1", "Read", Json.jnull, none⟩)]
    completedToolCalls := [⟨"Bash", "t0", "out", none, false⟩]
    cancelled := false }

/-- The agent state used in the concrete instance of C2. -/
def inFlightState : AgentState :=
  { sessions := [("s1", inFlightSession)]
    claudeSessionToClientSession := [("c1", "s1")]
    activeQueries := ["s1"] }

/-- Concrete instance of `cancelResolvesAndClears`. -/
theorem cancelResolvesAndClearsWitness :
    ∃ st', cancelRequest inFlightState "s1" = .ok st' ∧
      ∃ s', lookupA st'.sessions "s1" = some s' ∧
        s'.promptOutcome = some "cancelled" ∧
        s'.promptResolver = false ∧
        s'.pendingToolUses = [] ∧
        s'.completedToolCalls = [] ∧
        (∀ cid, inFlightSession.claudeSessionId = some cid →
          lookupA st'.claudeSessionToClientSession cid = none) ∧
        (∀ caps readTextFile parts, ∃ st'' content,
          promptRequest caps readTextFile st' "s1" parts = .ok (st'', content)) :=
  cancelResolvesAndClears inFlightState "s1" inFlightSession rfl rfl rfl

/-! ## Claim C4 -/

/-- The preview `tool_call` data `handleToolUse` builds for an `Edit` tool
use: one diff block from the tool's arguments. -/
def editOriginal (id : String) (input : Json) : OriginalToolCall :=
  { toolCallId := id
    title := "Editing " ++ jsFieldDisplay input "file_path"
    kind := "edit"
    rawInput := input
    content := [ToolContent.diff (jsFieldOrDefault input "file_path" "")
      (jsFieldOrDefault input "old_string" "")
      (jsFieldOrDefault input "new_string" "")] }

/-- The pending entry stored for an `Edit` tool use after the preview is
attached. -/
def editPendingEntry (id : String) (input : Json) : PendingToolUse :=
  ⟨id, "Edit", input, some (editOriginal id input)⟩

/-- The completed-queue record produced when the `Edit` result arrives. -/
def editCompleted (id : String) (input : Json) (result : String)
    (isErr : Option Bool) : CompletedToolCall :=
  ⟨"Edit", id, result, some (editOriginal id input), isErr == some true⟩

/-- C4: for a completed `Edit` invocation, nothing is emitted at result
arrival; the queued outcome carries the original preview, and the
`tool_call_update` flushed at the next text chunk has content equal to the
original diff blocks with exactly one appended text block holding the tool's
textual result, and status `failed` iff the result's error flag was set. -/
theorem editCompletionUpdate (s : AgentSession) (id : String) (input : Json)
    (result chunkText : String) (isErr : Option Bool) :
    (handleToolResultMessage (handleToolUse s ⟨id, "Edit", input⟩).1
        ⟨id, result, isErr⟩).2 = [] ∧
    (handleToolResultMessage (handleToolUse s ⟨id, "Edit", input⟩).1
        ⟨id, result, isErr⟩).1.completedToolCalls =
      s.completedToolCalls ++ [editCompleted id input result isErr] ∧
    buildToolCallUpdate (editCompleted id input result isErr) =
      SessionUpdate.toolCallUpdate id
        (if isErr == some true then "failed" else "completed")
        (some ("Edited " ++ jsFieldOrDefault input "file_path" "file"))
        (some "edit") (some input) (some result)
        ((editOriginal id input).content ++ [ToolContent.contentText result]) ∧
    (handleTextMessage (handleToolResultMessage (handleToolUse s ⟨id, "Edit", input⟩).1
        ⟨id, result, isErr⟩).1 chunkText).2.getLast? =
      some (buildToolCallUpdate (editCompleted id input result isErr)) := by
  have h1 : (handleToolUse s ⟨id, "Edit", input⟩).1 =
      { s with pendingToolUses :=
          insertA s.pendingToolUses id (editPendingEntry id input) } := by
    simp [handleToolUse, lookupA_insertA_self, insertA_insertA, editPendingEntry,
      editOriginal]
  have h2 : handleToolResultMessage (handleToolUse s ⟨id, "Edit", input⟩).1
      ⟨id, result, isErr⟩ =
      ({ s with
          pendingToolUses :=
            eraseA (insertA s.pendingToolUses id (editPendingEntry id input)) id
          completedToolCalls :=
            s.completedToolCalls ++ [editCompleted id input result isErr] },
        []) := by
    rw [h1]
    simp [handleToolResultMessage, lookupA_insertA_self, editPendingEntry,
      editCompleted]
  refine ⟨by rw [h2], by rw [h2],
    by simp [buildToolCallUpdate, editCompleted, editOriginal], ?_⟩
  rw [h2]
  have hflush : handleTextMessage
      ({ s with
          pendingToolUses :=
            eraseA (insertA s.pendingToolUses id (editPendingEntry id input)) id
          completedToolCalls :=
            s.completedToolCalls ++ [editCompleted id input result isErr] } :
        AgentSession) chunkText =
      ({ s with
          pendingToolUses :=
            eraseA (insertA s.pendingToolUses id (editPendingEntry id input)) id
          completedToolCalls := [] },
        SessionUpdate.agentMessageChunk chunkText ::
          (s.completedToolCalls ++ [editCompleted id input result isErr]).map
            buildToolCallUpdate) := by
    simp [handleTextMessage]
  rw [hflush]
  simp only [List.map_append, List.map_cons, List.map_nil]
  rw [show SessionUpdate.agentMessageChunk chunkText ::
        (List.map buildToolCallUpdate s.completedToolCalls ++
          [buildToolCallUpdate (editCompleted id input result isErr)]) =
      (SessionUpdate.agentMessageChunk chunkText ::
        List.map buildToolCallUpdate s.completedToolCalls) ++
        [buildToolCallUpdate (editCompleted id input result isErr)] from rfl]
  exact getLast?_append_singleton _ _

/-! ## Claim C10 -/

/-- C10: the upstream content a prompt sends consists exactly of the
conversions of the client parts whose variant is text, image, resource_link
or resource, in their original order; any other variant (e.g. audio) is
silently omitted rather than passed through or rejected. -/
theorem promptContentConversion (caps : Bool) (rf : String → Option String) :
    (∀ st sid parts s, lookupA st.sessions sid = some s →
      ∃ st', promptRequest caps rf st sid parts =
        .ok (st', parts.filterMap (convertPromptItem caps rf))) ∧
    (∀ parts, buildClaudeContent caps rf parts =
      parts.filterMap (convertPromptItem caps rf)) ∧
    (∀ d, convertPromptItem caps rf (.audio d) = none) := by
  have hbuild : ∀ parts, buildClaudeContent caps rf parts =
      parts.filterMap (convertPromptItem caps rf) := by
    intro parts
    induction parts with
    | nil => rfl
    | cons item rest ih =>
        cases item with
        | resourceLink uri =>
            cases caps with
            | true =>
                cases hr : rf (stripFirstOccurrence uri "file://") <;>
                  simp [buildClaudeContent, convertPromptItem, hr, ih]
            | false => simp [buildClaudeContent, convertPromptItem, ih]
        | _ => simp [buildClaudeContent, convertPromptItem, ih]
  refine ⟨?_, hbuild, fun d => rfl⟩
  intro st sid parts s hs
  exact ⟨_, by rw [promptRequest_eq caps rf st sid parts s hs, hbuild]⟩

/-- The state, parts and reader of the concrete C10 instance. -/
def conversionState : AgentState :=
  { sessions := [("s1", freshSession)]
    claudeSessionToClientSession := []
    activeQueries := [] }

/-- Prompt parts exercising every handled variant plus an audio part. -/
def conversionParts : List PromptPart :=
  [.text "hi", .audio "blob", .image "ZGF0YQ==" "image/png",
    .resourceLink "file:///tmp/x.txt", .resourceText "body" none,
    .resourceBlob "AAAA" (some "application/zip"), .resourceNone "mem://y"]

/-- A client file reader that always succeeds. -/
def conversionRead : String → Option String := fun _ => some "contents"

/-- Concrete instance of `promptContentConversion`. -/
theorem promptContentConversionWitness :
    (∃ st', promptRequest true conversionRead conversionState "s1" conversionParts =
      .ok (st', conversionParts.filterMap (convertPromptItem true conversionRead))) ∧
    convertPromptItem true conversionRead (.audio "blob") = none :=
  ⟨(promptContentConversion true conversionRead).1 conversionState "s1"
      conversionParts freshSession rfl,
    (promptContentConversion true conversionRead).2.2 "blob"⟩

/-! ## Claim C3: tool_call_update never precedes its tool_call

The property is stated over arbitrary traces of agent operations.  `seen`
accumulates the `(sessionId, toolCallId)` pairs for which a `tool_call`
notification has already been emitted; `orderedFrom seen outs` says every
`tool_call_update` in `outs` refers to a pair already seen at that point. -/

/-- Tag a handler's updates with the session they are notified under. -/
def tagOuts (sid : String) (outs : List SessionUpdate) : List (String × SessionUpdate) :=
  outs.map fun u => (sid, u)

/-- The `(sessionId, toolCallId)` pairs a single update contributes as a
`tool_call` notification. -/
def callsOf (sid : String) (u : SessionUpdate) : List (String × String) :=
  match u with
  | .toolCall id _ _ _ _ _ => [(sid, id)]
  | _ => []

/-- All `tool_call` pairs of a tagged update list, in order. -/
def callsOfList : List (String × SessionUpdate) → List (String × String)
  | [] => []
  | (sid, u) :: rest => callsOf sid u ++ callsOfList rest

/-- Every `tool_call_update` in the list refers to a pair already in `seen`
(updated left to right with the `tool_call`s encountered). -/
def orderedFrom (seen : List (String × String)) : List (String × SessionUpdate) → Prop
  | [] => True
  | (sid, u) :: rest =>
      (∀ id st ti ki ri ro co,
        u = SessionUpdate.toolCallUpdate id st ti ki ri ro co → (sid, id) ∈ seen) ∧
      orderedFrom (seen ++ callsOf sid u) rest

theorem orderedFrom_nil (seen : List (String × String)) : orderedFrom seen [] :=
  trivial

theorem callsOfList_append (l1 l2 : List (String × SessionUpdate)) :
    callsOfList (l1 ++ l2) = callsOfList l1 ++ callsOfList l2 := by
  induction l1 with
  | nil => rfl
  | cons hd tl ih =>
      obtain ⟨sid, u⟩ := hd
      simp [callsOfList, ih]

theorem tagOuts_append (sid : String) (l1 l2 : List SessionUpdate) :
    tagOuts sid (l1 ++ l2) = tagOuts sid l1 ++ tagOuts sid l2 := by
  simp [tagOuts]

theorem orderedFrom_append (seen : List (String × String))
    (l1 l2 : List (String × SessionUpdate)) :
    orderedFrom seen (l1 ++ l2) ↔
      orderedFrom seen l1 ∧ orderedFrom (seen ++ callsOfList l1) l2 := by
  induction l1 generalizing seen with
  | nil => simp [orderedFrom, callsOfList]
  | cons hd tl ih =>
      obtain ⟨sid, u⟩ := hd
      simp only [List.cons_append, orderedFrom, callsOfList, List.append_eq]
      rw [ih]
      simp [List.append_assoc, and_assoc]

theorem orderedFrom_mono (seen seen' : List (String × String))
    (l : List (String × SessionUpdate)) (hsub : ∀ a ∈ seen, a ∈ seen')
    (h : orderedFrom seen l) : orderedFrom seen' l := by
  induction l generalizing seen seen' with
  | nil => exact trivial
  | cons hd tl ih =>
      obtain ⟨sid, u⟩ := hd
      obtain ⟨h1, h2⟩ := h
      refine ⟨fun id st ti ki ri ro co heq => hsub _ (h1 id st ti ki ri ro co heq), ?_⟩
      refine ih (seen ++ callsOf sid u) (seen' ++ callsOf sid u) ?_ h2
      intro a ha
      rcases List.mem_append.mp ha with ha | ha
      · exact List.mem_append.mpr (Or.inl (hsub a ha))
      · exact List.mem_append.mpr (Or.inr ha)

/-- `buildToolCallUpdate` always yields a `tool_call_update` carrying the
record's client call id. -/
theorem buildToolCallUpdate_shape (c : CompletedToolCall) :
    ∃ st ti ki ri ro co, buildToolCallUpdate c =
      SessionUpdate.toolCallUpdate c.toolCallId st ti ki ri ro co := by
  cases h : c.originalToolCall <;> simp only [buildToolCallUpdate, h] <;>
    exact ⟨_, _, _, _, _, _, rfl⟩

/-- Per-session ordering invariant: the client call id of every pending and
every queued-completed tool call has already been announced by a `tool_call`
for this session. -/
def sessionSeen (sid : String) (s : AgentSession) (seen : List (String × String)) : Prop :=
  (∀ k pt, lookupA s.pendingToolUses k = some pt → (sid, pt.toolCallId) ∈ seen) ∧
  (∀ c ∈ s.completedToolCalls, (sid, c.toolCallId) ∈ seen)

theorem sessionSeen_mono (sid : String) (s : AgentSession)
    (seen seen' : List (String × String)) (hsub : ∀ a ∈ seen, a ∈ seen')
    (h : sessionSeen sid s seen) : sessionSeen sid s seen' :=
  ⟨fun k pt hk => hsub _ (h.1 k pt hk), fun c hc => hsub _ (h.2 c hc)⟩

theorem sessionSeen_of_pc (sid : String) (s s' : AgentSession)
    (seen : List (String × String))
    (hp : s'.pendingToolUses = s.pendingToolUses)
    (hc : s'.completedToolCalls = s.completedToolCalls)
    (h : sessionSeen sid s seen) : sessionSeen sid s' seen := by
  refine ⟨fun k pt hk => h.1 k pt ?_, fun c hcm => h.2 c ?_⟩
  · rw [hp] at hk; exact hk
  · rw [hc] at hcm; exact hcm

theorem sessionSeen_fresh (sid : String) (seen : List (String × String)) :
    sessionSeen sid freshSession seen := by
  constructor
  · intro k pt hk
    simp [freshSession, lookupA] at hk
  · intro c hc
    simp [freshSession] at hc

/-- Agent-level invariant: `sessionSeen` for every live session. -/
def stateSeen (st : AgentState) (seen : List (String × String)) : Prop :=
  ∀ sid s, lookupA st.sessions sid = some s → sessionSeen sid s seen

theorem stateSeen_mono (st : AgentState) (seen seen' : List (String × String))
    (hsub : ∀ a ∈ seen, a ∈ seen') (h : stateSeen st seen) : stateSeen st seen' :=
  fun sid s hs => sessionSeen_mono sid s seen seen' hsub (h sid s hs)

theorem stateSeen_of_insert (st st' : AgentState) (sid : String) (s' : AgentSession)
    (seen seen' : List (String × String))
    (hsess : st'.sessions = insertA st.sessions sid s')
    (hsub : ∀ a ∈ seen, a ∈ seen')
    (h : stateSeen st seen) (hs' : sessionSeen sid s' seen') :
    stateSeen st' seen' := by
  intro sid0 s0 h0
  rw [hsess, lookupA_insertA] at h0
  by_cases he : sid0 = sid
  · subst he
    rw [if_pos rfl] at h0
    cases h0
    exact hs'
  · rw [if_neg he] at h0
    exact sessionSeen_mono sid0 s0 seen seen' hsub (h sid0 s0 h0)

/-- Exact result of `handleTextMessage` (the `length > 0` guard only skips a
no-op clear). -/
theorem handleTextMessage_eq (s : AgentSession) (text : String) :
    handleTextMessage s text =
      ({ s with completedToolCalls := [] },
        SessionUpdate.agentMessageChunk text ::
          s.completedToolCalls.map buildToolCallUpdate) := by
  cases h : s.completedToolCalls with
  | nil =>
      simp [handleTextMessage, h]
      cases s
      simp_all
  | cons c cs => simp [handleTextMessage, h]

/-- Flushing queued outcomes whose call ids were all announced preserves the
ordering property (updates contribute no new `tool_call`s). -/
theorem orderedFrom_flushList (sid : String) (seen : List (String × String))
    (l : List CompletedToolCall) (h : ∀ c ∈ l, (sid, c.toolCallId) ∈ seen) :
    orderedFrom seen (tagOuts sid (l.map buildToolCallUpdate)) := by
  induction l with
  | nil => exact orderedFrom_nil seen
  | cons c cs ih =>
      obtain ⟨st0, ti, ki, ri, ro, co, hbc⟩ := buildToolCallUpdate_shape c
      refine ⟨?_, ?_⟩
      · intro id st ti' ki' ri' ro' co' heq
        rw [hbc] at heq
        cases heq
        exact h c (List.mem_cons_self c cs)
      · rw [hbc]
        show orderedFrom (seen ++ []) (tagOuts sid (cs.map buildToolCallUpdate))
        rw [List.append_nil]
        exact ih fun c' hc' => h c' (List.mem_cons_of_mem c hc')

theorem handleToolUse_ok (sid : String) (s : AgentSession) (tu : ToolUseParam)
    (seen : List (String × String)) (h : sessionSeen sid s seen) :
    orderedFrom seen (tagOuts sid (handleToolUse s tu).2) ∧
    sessionSeen sid (handleToolUse s tu).1
      (seen ++ callsOfList (tagOuts sid (handleToolUse s tu).2)) := by
  obtain ⟨⟨e, he1, he2⟩, title, kind, rawIn, cont, rest, hout, hrest⟩ :=
    handleToolUse_shape s tu
  have htag : tagOuts sid (handleToolUse s tu).2 =
      (sid, SessionUpdate.toolCall tu.id title kind "pending" rawIn cont) ::
        tagOuts sid rest := by
    rw [hout]; rfl
  have hrestcalls : callsOfList (tagOuts sid rest) = [] := by
    rcases hrest with rfl | ⟨es, rfl⟩ <;> rfl
  have hcalls : callsOfList (tagOuts sid (handleToolUse s tu).2) = [(sid, tu.id)] := by
    rw [htag]
    show callsOf sid (SessionUpdate.toolCall tu.id title kind "pending" rawIn cont) ++
      callsOfList (tagOuts sid rest) = [(sid, tu.id)]
    rw [hrestcalls]
    rfl
  constructor
  · rw [htag]
    refine ⟨fun id st ti ki ri ro co heq => SessionUpdate.noConfusion heq, ?_⟩
    rcases hrest with rfl | ⟨es, rfl⟩
    · exact orderedFrom_nil _
    · exact ⟨fun id st ti ki ri ro co heq => SessionUpdate.noConfusion heq,
        orderedFrom_nil _⟩
  · rw [he2, hcalls]
    constructor
    · intro k pt hk
      simp only [lookupA_insertA] at hk
      by_cases hkk : k = tu.id
      · rw [if_pos hkk] at hk
        cases hk
        rw [he1]
        exact List.mem_append.mpr (Or.inr (List.mem_singleton.mpr rfl))
      · rw [if_neg hkk] at hk
        exact List.mem_append.mpr (Or.inl (h.1 k pt hk))
    · intro c hc
      exact List.mem_append.mpr (Or.inl (h.2 c hc))

theorem handleToolResultMessage_ok (sid : String) (s : AgentSession)
    (tr : ToolResultParam) (seen : List (String × String))
    (h : sessionSeen sid s seen) :
    (handleToolResultMessage s tr).2 = [] ∧
    sessionSeen sid (handleToolResultMessage s tr).1 seen := by
  cases hl : lookupA s.pendingToolUses tr.tool_use_id with
  | none =>
      have hst : handleToolResultMessage s tr = (s, []) := by
        simp [handleToolResultMessage, hl]
      rw [hst]
      exact ⟨rfl, h⟩
  | some pt =>
      have hst : handleToolResultMessage s tr =
          ({ s with
              completedToolCalls := s.completedToolCalls ++
                [⟨pt.name, pt.toolCallId, tr.content, pt.originalToolCall,
                  tr.is_error == some true⟩]
              pendingToolUses := eraseA s.pendingToolUses tr.tool_use_id }, []) := by
        simp [handleToolResultMessage, hl]
      rw [hst]
      refine ⟨rfl, ?_, ?_⟩
      · intro k pt' hk
        exact h.1 k pt' (lookupA_eraseA_sub _ _ _ _ hk)
      · intro c hc
        rcases List.mem_append.mp hc with hc | hc
        · exact h.2 c hc
        · rw [List.mem_singleton.mp hc]
          exact h.1 tr.tool_use_id pt hl

theorem handleTextMessage_ok (sid : String) (s : AgentSession) (t : String)
    (seen : List (String × String)) (h : sessionSeen sid s seen) :
    orderedFrom seen (tagOuts sid (handleTextMessage s t).2) ∧
    sessionSeen sid (handleTextMessage s t).1 seen := by
  rw [handleTextMessage_eq]
  constructor
  · refine ⟨fun id st ti ki ri ro co heq => SessionUpdate.noConfusion heq, ?_⟩
    show orderedFrom (seen ++ []) (tagOuts sid (s.completedToolCalls.map buildToolCallUpdate))
    rw [List.append_nil]
    exact orderedFrom_flushList sid seen s.completedToolCalls h.2
  · exact ⟨h.1, fun c hc => absurd hc (List.not_mem_nil c)⟩

theorem handleThinkingMessage_ok (sid : String) (s : AgentSession) (t : String)
    (seen : List (String × String)) (h : sessionSeen sid s seen) :
    orderedFrom seen (tagOuts sid (handleThinkingMessage s t).2) ∧
    sessionSeen sid (handleThinkingMessage s t).1 seen :=
  ⟨⟨fun _ _ _ _ _ _ _ heq => SessionUpdate.noConfusion heq,
      orderedFrom_nil _⟩, h⟩

/-- The per-block dispatch property needed by the trace induction. -/
def handlerOk (f : AgentSession → ContentBlock → AgentSession × List SessionUpdate) :
    Prop :=
  ∀ sid s b seen, sessionSeen sid s seen →
    orderedFrom seen (tagOuts sid (f s b).2) ∧
    sessionSeen sid (f s b).1 (seen ++ callsOfList (tagOuts sid (f s b).2))

theorem handleAssistantBlock_handlerOk : handlerOk handleAssistantBlock := by
  intro sid s b seen h
  have hsub : ∀ a ∈ seen,
      a ∈ seen ++ callsOfList (tagOuts sid (handleAssistantBlock s b).2) :=
    fun a ha => List.mem_append.mpr (Or.inl ha)
  cases b with
  | text t =>
      obtain ⟨h1, h2⟩ := handleTextMessage_ok sid s t seen h
      exact ⟨h1, sessionSeen_mono _ _ _ _ hsub h2⟩
  | thinking t =>
      obtain ⟨h1, h2⟩ := handleThinkingMessage_ok sid s t seen h
      exact ⟨h1, sessionSeen_mono _ _ _ _ hsub h2⟩
  | redactedThinking t =>
      obtain ⟨h1, h2⟩ := handleThinkingMessage_ok sid s t seen h
      exact ⟨h1, sessionSeen_mono _ _ _ _ hsub h2⟩
  | toolUse id name input => exact handleToolUse_ok sid s ⟨id, name, input⟩ seen h
  | serverToolUse id name input => exact handleToolUse_ok sid s ⟨id, name, input⟩ seen h
  | webSearchToolResult id content =>
      obtain ⟨h1, h2⟩ := handleToolResultMessage_ok sid s ⟨id, content, none⟩ seen h
      constructor
      · show orderedFrom seen (tagOuts sid (handleToolResultMessage s ⟨id, content, none⟩).2)
        rw [h1]
        exact orderedFrom_nil seen
      · exact sessionSeen_mono _ _ _ _ hsub h2
  | toolResult id content isError => exact ⟨orderedFrom_nil seen, sessionSeen_mono _ _ _ _ hsub h⟩
  | document t => exact ⟨orderedFrom_nil seen, sessionSeen_mono _ _ _ _ hsub h⟩
  | image t => exact ⟨orderedFrom_nil seen, sessionSeen_mono _ _ _ _ hsub h⟩
  | searchResult t => exact ⟨orderedFrom_nil seen, sessionSeen_mono _ _ _ _ hsub h⟩

theorem handleUserBlock_handlerOk : handlerOk handleUserBlock := by
  intro sid s b seen h
  have hsub : ∀ a ∈ seen,
      a ∈ seen ++ callsOfList (tagOuts sid (handleUserBlock s b).2) :=
    fun a ha => List.mem_append.mpr (Or.inl ha)
  cases b with
  | text t =>
      obtain ⟨h1, h2⟩ := handleTextMessage_ok sid s t seen h
      exact ⟨h1, sessionSeen_mono _ _ _ _ hsub h2⟩
  | thinking t =>
      obtain ⟨h1, h2⟩ := handleThinkingMessage_ok sid s t seen h
      exact ⟨h1, sessionSeen_mono _ _ _ _ hsub h2⟩
  | redactedThinking t =>
      obtain ⟨h1, h2⟩ := handleThinkingMessage_ok sid s t seen h
      exact ⟨h1, sessionSeen_mono _ _ _ _ hsub h2⟩
  | toolUse id name input => exact handleToolUse_ok sid s ⟨id, name, input⟩ seen h
  | serverToolUse id name input => exact handleToolUse_ok sid s ⟨id, name, input⟩ seen h
  | webSearchToolResult id content =>
      obtain ⟨h1, h2⟩ := handleToolResultMessage_ok sid s ⟨id, content, none⟩ seen h
      constructor
      · show orderedFrom seen (tagOuts sid (handleToolResultMessage s ⟨id, content, none⟩).2)
        rw [h1]
        exact orderedFrom_nil seen
      · exact sessionSeen_mono _ _ _ _ hsub h2
  | toolResult id content isError =>
      obtain ⟨h1, h2⟩ := handleToolResultMessage_ok sid s ⟨id, content, isError⟩ seen h
      constructor
      · show orderedFrom seen
          (tagOuts sid (handleToolResultMessage s ⟨id, content, isError⟩).2)
        rw [h1]
        exact orderedFrom_nil seen
      · exact sessionSeen_mono _ _ _ _ hsub h2
  | document t =>
      obtain ⟨h1, h2⟩ := handleTextMessage_ok sid s t seen h
      exact ⟨h1, sessionSeen_mono _ _ _ _ hsub h2⟩
  | image t =>
      obtain ⟨h1, h2⟩ := handleTextMessage_ok sid s t seen h
      exact ⟨h1, sessionSeen_mono _ _ _ _ hsub h2⟩
  | searchResult t =>
      obtain ⟨h1, h2⟩ := handleTextMessage_ok sid s t seen h
      exact ⟨h1, sessionSeen_mono _ _ _ _ hsub h2⟩

theorem runBlocks_ok
    (f : AgentSession → ContentBlock → AgentSession × List SessionUpdate)
    (hf : handlerOk f) (sid : String) :
    ∀ (blocks : List ContentBlock) (s : AgentSession)
      (seen : List (String × String)), sessionSeen sid s seen →
      orderedFrom seen (tagOuts sid (runBlocks f s blocks).2) ∧
      sessionSeen sid (runBlocks f s blocks).1
        (seen ++ callsOfList (tagOuts sid (runBlocks f s blocks).2)) := by
  intro blocks
  induction blocks with
  | nil =>
      intro s seen h
      exact ⟨orderedFrom_nil seen, by simpa [runBlocks, tagOuts, callsOfList] using h⟩
  | cons b rest ih =>
      intro s seen h
      obtain ⟨ho1, hs1⟩ := hf sid s b seen h
      obtain ⟨ho2, hs2⟩ :=
        ih (f s b).1 (seen ++ callsOfList (tagOuts sid (f s b).2)) hs1
      have hrb : runBlocks f s (b :: rest) =
          ((runBlocks f (f s b).1 rest).1, (f s b).2 ++ (runBlocks f (f s b).1 rest).2) := by
        simp [runBlocks]
      rw [hrb]
      constructor
      · rw [tagOuts_append, orderedFrom_append]
        exact ⟨ho1, ho2⟩
      · rw [tagOuts_append, callsOfList_append, ← List.append_assoc]
        exact hs2

/-- The session state a successful `cancelRequest` stores back. -/
def cancelledSession (s : AgentSession) : AgentSession :=
  { claudeSessionId := s.claudeSessionId
    pendingPrompt := false
    promptResolver := false
    promptOutcome :=
      match s.promptOutcome with
      | some o => some o
      | none => if s.promptResolver || s.pendingPrompt then some "cancelled" else none
    pendingToolUses := []
    completedToolCalls := []
    cancelled := true }

/-- Exact result of `cancelRequest` on any existing session. -/
theorem cancelRequest_eq_general (st : AgentState) (sid : String) (s : AgentSession)
    (hs : lookupA st.sessions sid = some s) :
    cancelRequest st sid = .ok
      { sessions := insertA st.sessions sid (cancelledSession s)
        claudeSessionToClientSession :=
          match s.claudeSessionId with
          | some cid => eraseA st.claudeSessionToClientSession cid
          | none => st.claudeSessionToClientSession
        activeQueries := st.activeQueries.erase sid } := by
  by_cases hr : s.promptResolver <;> by_cases hp : s.pendingPrompt <;>
    cases ho : s.promptOutcome <;> cases hcsi : s.claudeSessionId <;>
      simp [cancelRequest, cancelledSession, hs, hr, hp, ho, hcsi, resolvePromise]

theorem sessionSeen_cancelledSession (sid : String) (s : AgentSession)
    (seen : List (String × String)) : sessionSeen sid (cancelledSession s) seen := by
  constructor
  · intro k pt hk
    simp [cancelledSession, lookupA] at hk
  · intro c hc
    simp [cancelledSession] at hc

/-- `handleResultMessage` never touches the pending map or the queue. -/
theorem handleResultMessage_pc (s : AgentSession) (isError : Bool) :
    (handleResultMessage s isError).pendingToolUses = s.pendingToolUses ∧
    (handleResultMessage s isError).completedToolCalls = s.completedToolCalls := by
  unfold handleResultMessage resolvePromise
  by_cases hr : !s.promptResolver
  · simp [hr]
  · by_cases hp : s.pendingToolUses.length > 0
    · simp [hr, hp]
    · cases ho : s.promptOutcome <;> simp [hr, hp, ho]

theorem stateSeen_append_nilcalls (st : AgentState) (seen : List (String × String))
    (h : stateSeen st seen) : stateSeen st (seen ++ callsOfList []) := by
  rw [show callsOfList [] = [] from rfl, List.append_nil]
  exact h

/-- One agent operation preserves the ordering invariant and emits an ordered
batch of updates. -/
theorem stepOp_ok (caps : Bool) (rf : String → Option String) (st : AgentState)
    (op : AgentOp) (seen : List (String × String)) (h : stateSeen st seen) :
    orderedFrom seen (stepOp caps rf st op).2 ∧
    stateSeen (stepOp caps rf st op).1
      (seen ++ callsOfList (stepOp caps rf st op).2) := by
  have hsubgen : ∀ (l : List (String × String)), ∀ a ∈ seen, a ∈ seen ++ l :=
    fun l a ha => List.mem_append.mpr (Or.inl ha)
  cases op with
  | upstream sid msg =>
      show orderedFrom seen (processClaudeMessage st sid msg).2 ∧
        stateSeen (processClaudeMessage st sid msg).1
          (seen ++ callsOfList (processClaudeMessage st sid msg).2)
      cases hl : lookupA st.sessions sid with
      | none =>
          have hpc : processClaudeMessage st sid msg = (st, []) := by
            simp [processClaudeMessage, hl]
          rw [hpc]
          exact ⟨orderedFrom_nil seen, stateSeen_append_nilcalls st seen h⟩
      | some s =>
          by_cases hc : s.cancelled
          · have hpc : processClaudeMessage st sid msg = (st, []) := by
              simp [processClaudeMessage, hl, hc]
            rw [hpc]
            exact ⟨orderedFrom_nil seen, stateSeen_append_nilcalls st seen h⟩
          · cases msg with
            | system subtype cid =>
                have hpc : processClaudeMessage st sid (.system subtype cid) =
                    (handleSystemMessage st sid subtype cid, []) := by
                  simp [processClaudeMessage, hl, hc]
                rw [hpc]
                refine ⟨orderedFrom_nil seen, ?_⟩
                rw [show callsOfList [] = [] from rfl, List.append_nil]
                unfold handleSystemMessage
                by_cases hcond : subtype = "init" ∧ cid ≠ ""
                · rw [if_pos hcond, hl]
                  exact stateSeen_of_insert st _ sid _ seen seen rfl
                    (fun a ha => ha) h
                    (sessionSeen_of_pc sid s _ seen rfl rfl (h sid s hl))
                · rw [if_neg hcond]
                  exact h
            | assistant blocks =>
                have hpc : processClaudeMessage st sid (.assistant blocks) =
                    ({ st with
                        sessions := insertA st.sessions sid
                          (runBlocks handleAssistantBlock s blocks).1 },
                      tagOuts sid (runBlocks handleAssistantBlock s blocks).2) := by
                  simp [processClaudeMessage, hl, hc, tagOuts]
                rw [hpc]
                obtain ⟨ho, hsi⟩ := runBlocks_ok handleAssistantBlock
                  handleAssistantBlock_handlerOk sid blocks s seen (h sid s hl)
                exact ⟨ho, stateSeen_of_insert st _ sid _ seen _ rfl (hsubgen _) h hsi⟩
            | user uc =>
                cases uc with
                | str t =>
                    have hpc : processClaudeMessage st sid (.user (.str t)) =
                        ({ st with
                            sessions := insertA st.sessions sid
                              (handleTextMessage s t).1 },
                          tagOuts sid (handleTextMessage s t).2) := by
                      simp [processClaudeMessage, hl, hc, tagOuts]
                    rw [hpc]
                    obtain ⟨ho, hsi⟩ := handleTextMessage_ok sid s t seen (h sid s hl)
                    exact ⟨ho, stateSeen_of_insert st _ sid _ seen _ rfl (hsubgen _) h
                      (sessionSeen_mono _ _ _ _ (hsubgen _) hsi)⟩
                | blocks bs =>
                    have hpc : processClaudeMessage st sid (.user (.blocks bs)) =
                        ({ st with
                            sessions := insertA st.sessions sid
                              (runBlocks handleUserBlock s bs).1 },
                          tagOuts sid (runBlocks handleUserBlock s bs).2) := by
                      simp [processClaudeMessage, hl, hc, tagOuts]
                    rw [hpc]
                    obtain ⟨ho, hsi⟩ := runBlocks_ok handleUserBlock
                      handleUserBlock_handlerOk sid bs s seen (h sid s hl)
                    exact ⟨ho, stateSeen_of_insert st _ sid _ seen _ rfl (hsubgen _) h hsi⟩
            | result isError =>
                have hpc : processClaudeMessage st sid (.result isError) =
                    ({ st with
                        sessions := insertA st.sessions sid
                          (handleResultMessage s isError) }, []) := by
                  simp [processClaudeMessage, hl, hc]
                rw [hpc]
                refine ⟨orderedFrom_nil seen, ?_⟩
                rw [show callsOfList [] = [] from rfl, List.append_nil]
                exact stateSeen_of_insert st _ sid _ seen seen rfl (fun a ha => ha) h
                  (sessionSeen_of_pc sid s _ seen
                    (handleResultMessage_pc s isError).1
                    (handleResultMessage_pc s isError).2 (h sid s hl))
  | clientNewSession sid =>
      have hstep : stepOp caps rf st (.clientNewSession sid) =
          (newSession st sid, []) := rfl
      rw [hstep]
      refine ⟨orderedFrom_nil seen, ?_⟩
      rw [show callsOfList [] = [] from rfl, List.append_nil]
      exact stateSeen_of_insert st _ sid freshSession seen seen rfl (fun a ha => ha) h
        (sessionSeen_fresh sid seen)
  | clientPrompt sid parts =>
      cases hl : lookupA st.sessions sid with
      | none =>
          have hstep : stepOp caps rf st (.clientPrompt sid parts) = (st, []) := by
            simp [stepOp, promptRequest, hl]
          rw [hstep]
          exact ⟨orderedFrom_nil seen, stateSeen_append_nilcalls st seen h⟩
      | some s =>
          have hstep : stepOp caps rf st (.clientPrompt sid parts) =
              ({ st with
                  sessions := insertA st.sessions sid
                    { claudeSessionId := s.claudeSessionId
                      pendingPrompt := true
                      promptResolver := true
                      promptOutcome := none
                      pendingToolUses := s.pendingToolUses
                      completedToolCalls := s.completedToolCalls
                      cancelled := false }
                  activeQueries := promptRequest.insertList st.activeQueries sid },
                []) := by
            simp [stepOp, promptRequest_eq caps rf st sid parts s hl]
          rw [hstep]
          refine ⟨orderedFrom_nil seen, ?_⟩
          rw [show callsOfList [] = [] from rfl, List.append_nil]
          exact stateSeen_of_insert st _ sid _ seen seen rfl (fun a ha => ha) h
            (sessionSeen_of_pc sid s _ seen rfl rfl (h sid s hl))
  | clientCancel sid =>
      cases hl : lookupA st.sessions sid with
      | none =>
          have hstep : stepOp caps rf st (.clientCancel sid) = (st, []) := by
            simp [stepOp, cancelRequest, hl]
          rw [hstep]
          exact ⟨orderedFrom_nil seen, stateSeen_append_nilcalls st seen h⟩
      | some s =>
          have hstep : stepOp caps rf st (.clientCancel sid) =
              ({ sessions := insertA st.sessions sid (cancelledSession s),
                 claudeSessionToClientSession :=
                   (match s.claudeSessionId with
                     | some cid => eraseA st.claudeSessionToClientSession cid
                     | none => st.claudeSessionToClientSession),
                 activeQueries := st.activeQueries.erase sid }, []) := by
            simp [stepOp, cancelRequest_eq_general st sid s hl]
          rw [hstep]
          refine ⟨orderedFrom_nil seen, ?_⟩
          rw [show callsOfList [] = [] from rfl, List.append_nil]
          exact stateSeen_of_insert st _ sid _ seen seen rfl (fun a ha => ha) h
            (sessionSeen_cancelledSession sid s seen)

/-- Traces preserve the invariant and emit ordered update sequences. -/
theorem runOps_ok (caps : Bool) (rf : String → Option String) :
    ∀ (ops : List AgentOp) (st : AgentState) (seen : List (String × String)),
      stateSeen st seen →
      orderedFrom seen (runOps caps rf st ops).2 ∧
      stateSeen (runOps caps rf st ops).1
        (seen ++ callsOfList (runOps caps rf st ops).2) := by
  intro ops
  induction ops with
  | nil =>
      intro st seen h
      exact ⟨orderedFrom_nil seen, stateSeen_append_nilcalls st seen h⟩
  | cons op rest ih =>
      intro st seen h
      obtain ⟨ho1, hs1⟩ := stepOp_ok caps rf st op seen h
      obtain ⟨ho2, hs2⟩ := ih (stepOp caps rf st op).1 _ hs1
      have hro : runOps caps rf st (op :: rest) =
          ((runOps caps rf (stepOp caps rf st op).1 rest).1,
            (stepOp caps rf st op).2 ++
              (runOps caps rf (stepOp caps rf st op).1 rest).2) := by
        simp [runOps]
      rw [hro]
      constructor
      · rw [orderedFrom_append]
        exact ⟨ho1, ho2⟩
      · rw [callsOfList_append, ← List.append_assoc]
        exact hs2

/-- A pair in `callsOfList` comes from an actual `tool_call` in the list. -/
theorem mem_callsOfList (pre : List (String × SessionUpdate)) (sid id : String)
    (h : (sid, id) ∈ callsOfList pre) :
    ∃ title kind stat rawIn cont,
      (sid, SessionUpdate.toolCall id title kind stat rawIn cont) ∈ pre := by
  induction pre with
  | nil => simp [callsOfList] at h
  | cons hd tl ih =>
      obtain ⟨sid0, u⟩ := hd
      rw [show callsOfList ((sid0, u) :: tl) = callsOf sid0 u ++ callsOfList tl
        from rfl] at h
      rcases List.mem_append.mp h with h | h
      · cases u with
        | toolCall tcid ti ki stt ri co =>
            rw [show callsOf sid0 (SessionUpdate.toolCall tcid ti ki stt ri co)
              = [(sid0, tcid)] from rfl, List.mem_singleton] at h
            cases h
            exact ⟨ti, ki, stt, ri, co, List.mem_cons_self _ _⟩
        | agentMessageChunk t => simp [callsOf] at h
        | agentThoughtChunk t => simp [callsOf] at h
        | toolCallUpdate a b c d e f g => simp [callsOf] at h
        | plan es => simp [callsOf] at h
      · obtain ⟨a, b, c, d, e, hm⟩ := ih h
        exact ⟨a, b, c, d, e, List.mem_cons_of_mem _ hm⟩

/-- C3: over any trace of agent operations from the initial state, the
client-visible update sequence is ordered: every `tool_call_update` carrying a
given call id for a given session is preceded (in the per-session emitted
sequence) by a `tool_call` notification carrying the same id for the same
session. -/
theorem toolCallUpdateAfterToolCall (caps : Bool) (rf : String → Option String)
    (ops : List AgentOp) :
    orderedFrom [] (runOps caps rf emptyAgentState ops).2 ∧
    (∀ pre sid id stt ti ki ri ro co post,
      (runOps caps rf emptyAgentState ops).2 =
        pre ++ (sid, SessionUpdate.toolCallUpdate id stt ti ki ri ro co) :: post →
      ∃ title kind stat rawIn cont,
        (sid, SessionUpdate.toolCall id title kind stat rawIn cont) ∈ pre) := by
  have hord : orderedFrom [] (runOps caps rf emptyAgentState ops).2 :=
    (runOps_ok caps rf ops emptyAgentState []
      (fun sid s hs => by simp [emptyAgentState, lookupA] at hs)).1
  refine ⟨hord, ?_⟩
  intro pre sid id stt ti ki ri ro co post hsplit
  rw [hsplit] at hord
  rw [orderedFrom_append] at hord
  have hcond := hord.2.1
  have hmem := hcond id stt ti ki ri ro co rfl
  rw [List.nil_append] at hmem
  exact mem_callsOfList pre sid id hmem

/-- The trace of the concrete C3 instance: create a session, a tool use, its
result, then a text chunk (which flushes the update). -/
def traceOps : List AgentOp :=
  [.clientNewSession "s1",
   .upstream "s1" (.assistant [.toolUse "t1" "Read" Json.jnull]),
   .upstream "s1" (.user (.blocks [.toolResult "t1" "out" none])),
   .upstream "s1" (.assistant [.text "done"])]

/-- Concrete instance of `toolCallUpdateAfterToolCall`: on `traceOps` the
flushed `tool_call_update` for `"t1"` is preceded by its `tool_call`. -/
theorem toolCallUpdateAfterToolCallWitness :
    ∃ title kind stat rawIn cont,
      ("s1", SessionUpdate.toolCall "t1" title kind stat rawIn cont) ∈
        [("s1", SessionUpdate.toolCall "t1" "Read()" (some "read") "pending"
            Json.jnull []),
          ("s1", SessionUpdate.agentMessageChunk "done")] :=
  (toolCallUpdateAfterToolCall false (fun _ => none) traceOps).2
    [("s1", SessionUpdate.toolCall "t1" "Read()" (some "read") "pending"
        Json.jnull []),
      ("s1", SessionUpdate.agentMessageChunk "done")]
    "s1" "t1" "completed" none none none none [ToolContent.contentText "out"] []
    rfl
